import Mathlib

/-!
Verification of the assessor-scraper extraction core
(`real_property.py`, `rp_tables.py`) against its specification.

The Python source is shallowly embedded: dictionaries become association
lists, exceptions become an `Except` monad over an explicit error type,
the BeautifulSoup DOM becomes an inductive `Html` tree, the network is an
oracle `Nat → Except String α` giving the outcome of each attempt, and the
unbounded retry recursion is driven by explicit fuel (a `none` result means
the call is still retrying when the fuel runs out).
-/

/-- Python exception classes raised by the extraction code.  The transient
network exceptions caught by the retry logic are kept separate (they live in
the oracle's `Except String` layer), so `PyErr` holds only the errors that
propagate to the caller. -/
inductive PyErr where
  | indexError : PyErr
  | attributeError : PyErr
  | typeError : PyErr
  | keyError : String → PyErr
  | valueError : String → PyErr
deriving DecidableEq, Repr

/-- Python values as they appear in the row dictionaries produced by the
`get_tables` collaborators and stored in the record objects. -/
inductive PyVal where
  | vint : Int → PyVal
  | vfloat : Rat → PyVal
  | vstr : String → PyVal
  | vdate : Nat → Nat → Nat → PyVal
  | vnone : PyVal
deriving DecidableEq, Repr

deriving instance DecidableEq for Except

/-- A Python dictionary with string keys, as an association list. -/
abbrev Dict := List (String × PyVal)

/-- Python `d[k]` on a dictionary: the value, or a `KeyError`. -/
def dget (d : Dict) (k : String) : Except PyErr PyVal :=
  match d.find? (fun p => p.1 = k) with
  | some p => .ok p.2
  | none => .error (.keyError k)

/-- Python `str` coercion check: `strptime` applied to a non-string raises
`TypeError`. -/
def asStr (v : PyVal) : Except PyErr String :=
  match v with
  | .vstr s => .ok s
  | _ => .error .typeError

/-! ### Character utilities (ASCII) -/

def isDig (c : Char) : Bool := 48 ≤ c.toNat && c.toNat ≤ 57

def digitVal (c : Char) : Nat := c.toNat - 48

def digitChar (n : Nat) : Char := Char.ofNat (48 + n)

def isAlnum (c : Char) : Bool := c.isAlpha || isDig c

/-! ### `datetime.strptime(s, "%m/%d/%Y")`

CPython's `_strptime` compiles the format to the regular expression
`(1[0-2]|0[1-9]|[1-9])/(3[01]|[12]\d|0[1-9]|[1-9])/(\d\d\d\d)`, requires the
match to consume the whole input, and then builds a `datetime`, which
validates the calendar date.  The ordered alternation with backtracking is
embedded below as candidate lists tried first to last. -/

/-- Character-class range check `[lo-hi]` on ASCII codes. -/
def inRange (c lo hi : Char) : Bool := lo.toNat ≤ c.toNat && c.toNat ≤ hi.toNat

/-- Candidates of `%m` = `1[0-2]|0[1-9]|[1-9]`, in alternation order. -/
def monthCands : List Char → List (Nat × List Char)
  | c1 :: c2 :: rest =>
    (if c1 = '1' && inRange c2 '0' '2' then [(10 + digitVal c2, rest)] else []) ++
    (if c1 = '0' && (isDig c2 && c2 ≠ '0') then [(digitVal c2, rest)] else []) ++
    (if isDig c1 && c1 ≠ '0' then [(digitVal c1, c2 :: rest)] else [])
  | [c1] => if isDig c1 && c1 ≠ '0' then [(digitVal c1, [])] else []
  | [] => []

/-- Candidates of `%d` = `3[01]|[12]\d|0[1-9]|[1-9]`, in alternation order. -/
def dayCands : List Char → List (Nat × List Char)
  | c1 :: c2 :: rest =>
    (if c1 = '3' && (c2 = '0' || c2 = '1') then [(30 + digitVal c2, rest)] else []) ++
    (if (c1 = '1' || c1 = '2') && isDig c2 then [(10 * digitVal c1 + digitVal c2, rest)] else []) ++
    (if c1 = '0' && (isDig c2 && c2 ≠ '0') then [(digitVal c2, rest)] else []) ++
    (if isDig c1 && c1 ≠ '0' then [(digitVal c1, c2 :: rest)] else [])
  | [c1] => if isDig c1 && c1 ≠ '0' then [(digitVal c1, [])] else []
  | [] => []

/-- `%Y` = exactly four digits. -/
def yearCand : List Char → Option (Nat × List Char)
  | c1 :: c2 :: c3 :: c4 :: rest =>
    if isDig c1 && isDig c2 && isDig c3 && isDig c4 then
      some (digitVal c1 * 1000 + digitVal c2 * 100 + digitVal c3 * 10 + digitVal c4, rest)
    else none
  | _ => none

/-- First candidate on which the continuation succeeds (regex backtracking). -/
def firstSome {α β : Type} : List α → (α → Option β) → Option β
  | [], _ => none
  | x :: xs, f =>
    match f x with
    | some b => some b
    | none => firstSome xs f

/-- Day and year part of the pattern, after the first `/`. -/
def dayYearPart (r2 : List Char) : Option (Nat × Nat) :=
  firstSome (dayCands r2) (fun p =>
    match p.2 with
    | '/' :: r4 =>
      match yearCand r4 with
      | some (y, []) => some (p.1, y)
      | _ => none
    | _ => none)

/-- The whole `%m/%d/%Y` pattern, anchored at both ends. -/
def mdyScan (cs : List Char) : Option (Nat × Nat × Nat) :=
  firstSome (monthCands cs) (fun p =>
    match p.2 with
    | '/' :: r2 => (dayYearPart r2).map (fun q => (p.1, q.1, q.2))
    | _ => none)

def leapYear (y : Nat) : Bool := y % 4 = 0 && (y % 100 ≠ 0 || y % 400 = 0)

def daysInMonth (y m : Nat) : Nat :=
  if m = 2 then (if leapYear y then 29 else 28)
  else if m = 4 || m = 6 || m = 9 || m = 11 then 30
  else 31

/-- The validity check performed by the `datetime` constructor
(`MINYEAR = 1`; the day must exist in the month). -/
def datetimeValid (y m d : Nat) : Bool :=
  1 ≤ y && y ≤ 9999 && 1 ≤ m && m ≤ 12 && 1 ≤ d && d ≤ daysInMonth y m

/-- `datetime.strptime(s, "%m/%d/%Y")`, returning `(year, month, day)` or the
`ValueError` message. -/
def strptimeMDY (s : String) : Except String (Nat × Nat × Nat) :=
  match mdyScan s.toList with
  | some (m, d, y) =>
    if datetimeValid y m d then .ok (y, m, d)
    else .error "day is out of range for month"
  | none => .error "time data does not match format"

/-! Spec-side rendering of the `%m/%d/%Y` language, used to characterize
exactly which strings `strptimeMDY` accepts. -/

def pad2 (n : Nat) : List Char := [digitChar (n / 10 % 10), digitChar (n % 10)]

def pad4 (n : Nat) : List Char :=
  [digitChar (n / 1000 % 10), digitChar (n / 100 % 10), digitChar (n / 10 % 10), digitChar (n % 10)]

/-- Render a month or day with (`true`) or without (`false`) a leading zero;
two-digit values have a single rendering. -/
def renderNum (padded : Bool) (n : Nat) : List Char :=
  if n < 10 && !padded then [digitChar n] else pad2 n

/-- Every string of the `%m/%d/%Y` language is of this shape. -/
def renderMDY (pm pd : Bool) (m d y : Nat) : String :=
  List.asString (renderNum pm m ++ '/' :: renderNum pd d ++ '/' :: pad4 y)

/-! ### The two regular expressions of `extractRealPropertyData`

`re.match(r'(.*) Square Feet', s)` (and the `Acres` variant): the greedy
`(.*)` takes the longest prefix not containing a newline that is followed by
the literal; the trailing remainder is unconstrained.

`re.findall(r'(.+) Block ([a-zA-Z0-9]+) Lot ([a-zA-Z0-9]+)', s)[0]`: the
scan finds the leftmost match start; `(.+)` is greedy, and the two
alphanumeric groups are maximal runs followed by the literals. -/

/-- `re.match('(.*)' ++ lit, s)`: the group captured by the greedy `(.*)`,
or `none` when there is no match. -/
def reStarLit (lit : List Char) : List Char → Option (List Char)
  | [] => if lit.isPrefixOf ([] : List Char) then some [] else none
  | c :: cs =>
    if c = '\n' then
      (if lit.isPrefixOf (c :: cs) then some [] else none)
    else
      match reStarLit lit cs with
      | some g => some (c :: g)
      | none => if lit.isPrefixOf (c :: cs) then some [] else none

/-- Greedy `(.*)` with a continuation: the longest newline-free prefix whose
remainder satisfies the continuation. -/
def greedyDot {β : Type} (k : List Char → Option β) : List Char → Option (List Char × β)
  | [] =>
    match k [] with
    | some b => some ([], b)
    | none => none
  | c :: cs =>
    if c = '\n' then
      match k (c :: cs) with
      | some b => some ([], b)
      | none => none
    else
      match greedyDot k cs with
      | some (g, b) => some (c :: g, b)
      | none =>
        match k (c :: cs) with
        | some b => some ([], b)
        | none => none

def blockLit : List Char := [' ', 'B', 'l', 'o', 'c', 'k', ' ']

def lotLit : List Char := [' ', 'L', 'o', 't', ' ']

/-- Tail of the subdivision pattern: `([a-zA-Z0-9]+) Lot ([a-zA-Z0-9]+)`
followed by an unconstrained remainder (the two groups are maximal
alphanumeric runs). -/
def matchBlockTail (r : List Char) : Option (List Char × List Char) :=
  if r.takeWhile isAlnum = [] then none
  else if lotLit.isPrefixOf (r.dropWhile isAlnum) then
    if ((r.dropWhile isAlnum).drop 5).takeWhile isAlnum = [] then none
    else some (r.takeWhile isAlnum, ((r.dropWhile isAlnum).drop 5).takeWhile isAlnum)
  else none

/-- Continuation after the `(.+)` group: the literal `" Block "` then the
tail of the pattern. -/
def subCont (r : List Char) : Option (List Char × List Char) :=
  if blockLit.isPrefixOf r then matchBlockTail (r.drop 7) else none

/-- A match of the whole subdivision pattern anchored at the current
position (the `(.+)` group must be nonempty and newline-free). -/
def matchSubAt : List Char → Option (List Char × List Char × List Char)
  | [] => none
  | c :: cs =>
    if c = '\n' then none
    else (greedyDot subCont cs).map (fun p => (c :: p.1, p.2))

/-- `re.findall(...)` scan: the leftmost match of the subdivision pattern. -/
def reFindSub : List Char → Option (List Char × List Char × List Char)
  | [] => none
  | c :: cs =>
    match matchSubAt (c :: cs) with
    | some res => some res
    | none => reFindSub cs

/-! ### `helpers.get_int` / `helpers.get_float` -/

/-- Characters kept by the lenient numeric parsers (thousands separators
and currency symbols are dropped). -/
def keepCh (c : Char) : Bool := !(c = ',' || c = '$')

def notDot (c : Char) : Bool := c ≠ '.'

/-- Digits of a list interpreted in base 10. -/
def natOfDigits : List Char → Nat
  | [] => 0
  | c :: cs => natOfDigits cs + digitVal c * 10 ^ cs.length

/-- Modelled from the spec: `helpers.get_int` is not under `src/`; §4.4 says
`toInt` "parses digits, tolerating thousands separators/currency symbols"
and "returns None-equivalent when conversion impossible rather than
raising".  Commas and dollar signs are dropped; a nonempty all-digit
remainder is the value, anything else is `none`. -/
def get_int (s : String) : Option Int :=
  let cs := s.toList.filter keepCh
  if cs ≠ [] && cs.all isDig then some (natOfDigits cs : Nat) else none

/-- Value of `a.b` as a rational, where `a` and `b` are digit lists. -/
def ratOfParts (a b : List Char) : Rat :=
  (natOfDigits a : Rat) + (natOfDigits b : Rat) / (10 : Rat) ^ b.length

/-- Decimal-literal shape check on the already-filtered characters:
`digits`, `digits.digits`, `digits.` or `.digits`. -/
def floatOfChars (cs : List Char) : Option Rat :=
  match cs.dropWhile notDot with
  | [] =>
    if cs.takeWhile notDot ≠ [] && (cs.takeWhile notDot).all isDig then
      some (natOfDigits (cs.takeWhile notDot) : Nat)
    else none
  | _ :: b =>
    if (cs.takeWhile notDot ≠ [] || b ≠ []) &&
        ((cs.takeWhile notDot).all isDig && (b.all isDig && !b.contains '.')) then
      some (ratOfParts (cs.takeWhile notDot) b)
    else none

/-- Modelled from the spec: `helpers.get_float` is not under `src/`; §4.4
says `toFloat` has the same leniency as `toInt`: separators and currency
symbols are dropped, and a text that is not a decimal literal yields
`none` instead of raising. -/
def get_float (s : String) : Option Rat := floatOfChars (s.toList.filter keepCh)

/-! ### The BeautifulSoup DOM, as used by `extractRealPropertyData` -/

/-- A parsed HTML tree (`BeautifulSoup(html, features="lxml")`).  Elements
carry a tag, an attribute list and children; text nodes are leaves. -/
inductive Html where
  | elem : String → List (String × String) → List Html → Html
  | text : String → Html

def Html.tagIs (tag : String) : Html → Bool
  | .elem t _ _ => t = tag
  | .text _ => false

def Html.attrsOf : Html → List (String × String)
  | .elem _ a _ => a
  | .text _ => []

mutual

/-- All nodes of a tree in document (pre-)order, the root included. -/
def Html.descAll : Html → List Html
  | .text s => [.text s]
  | .elem t a cs => .elem t a cs :: Html.descAllList cs
termination_by structural h => h

def Html.descAllList : List Html → List Html
  | [] => []
  | h :: hs => Html.descAll h ++ Html.descAllList hs
termination_by structural hs => hs

end

/-- Strict descendants of a node, in document order. -/
def Html.descendants : Html → List Html
  | .text _ => []
  | .elem _ _ cs => Html.descAllList cs

/-- `node.find_all(tag)`: every descendant element with the tag. -/
def findAllTag (tag : String) (h : Html) : List Html :=
  (Html.descendants h).filter (Html.tagIs tag)

/-- Attribute-style access `node.tag` (= `node.find(tag)`): the first
descendant element with the tag, or `None`. -/
def findTag (tag : String) (h : Html) : Option Html :=
  (findAllTag tag h).head?

/-- BeautifulSoup `.string`: the single text fragment under a node, when the
node has exactly one child all the way down to it; `None` otherwise. -/
def nodeString : Html → Option String
  | .text s => some s
  | .elem _ _ [c] => nodeString c
  | .elem _ _ _ => none

/-- Python whitespace, as recognized by `str.split` with no argument. -/
def pySpace (c : Char) : Bool :=
  c = ' ' || c = '\t' || c = '\n' || c = '\r' || c = '\x0b' || c = '\x0c'

/-- One right-to-left pass collapsing every whitespace run to a single
space and dropping a trailing run. -/
def collapseCore : List Char → List Char
  | [] => []
  | c :: cs =>
    let r := collapseCore cs
    if pySpace c then
      match r with
      | [] => []
      | c2 :: _ => if c2 = ' ' then r else ' ' :: r
    else c :: r

/-- Python `' '.join(s.split())`: collapse whitespace runs to single spaces
and strip both ends. -/
def pyCollapse (s : String) : String :=
  List.asString ((collapseCore s.toList).dropWhile pySpace)

/-! ### Record types (the fields assigned by the extraction code) -/

/-- The `RealProperty` row object; every field starts unset (`None`). -/
structure RealProperty where
  propertyid : Option Int := none
  account_number : Option String := none
  property_type : Option String := none
  location : Option String := none
  building_name_occupant : Option String := none
  city : Option String := none
  owner_name_1 : Option String := none
  owner_name_2 : Option String := none
  billing_address_1 : Option String := none
  billing_address_2 : Option String := none
  city_state_zip : Option String := none
  quarter_section : Option Int := none
  parent_acct : Option String := none
  tax_district : Option String := none
  school_system : Option String := none
  land_size_str : Option String := none
  land_size : Option Rat := none
  lot_width : Option Rat := none
  lot_depth : Option Rat := none
  land_value : Option Int := none
  quarter_section_description : Option String := none
  subdivision : Option String := none
  block : Option String := none
  lot : Option String := none
  legal_description : Option String := none
deriving DecidableEq, Repr

/-- One line of the valuation history table (`rp_tables.ValuationHistory`);
surrogate-key and ORM-relationship columns are out of scope. -/
structure ValuationHistory where
  year : PyVal
  market_value : PyVal
  taxable_market_value : PyVal
  gross_assessed : PyVal
  exemption : PyVal
  net_assessed : PyVal
  millage : PyVal
  tax : PyVal
  tax_savings : PyVal
deriving DecidableEq, Repr

/-- One deed transaction (`rp_tables.DeedTransaction`). -/
structure DeedTransaction where
  date : PyVal
  type : PyVal
  book : PyVal
  page : PyVal
  price : PyVal
  grantor : PyVal
  grantee : PyVal
deriving DecidableEq, Repr

/-- One building permit (`rp_tables.BuildingPermit`). -/
structure BuildingPermit where
  date : PyVal
  permit_number : PyVal
  provided_by : PyVal
  building_number : PyVal
  description : PyVal
  estimated_cost : PyVal
  status : PyVal
deriving DecidableEq, Repr

/-- The `**kwargs` of `extractRealPropertyData`: the two recognized keys. -/
structure Kwargs where
  property_html : Option Html := none
  propertyid : Option Int := none

/-- Observable side effects of the extraction code: the outbound request
(with the identifier that built the URL), the row-list invocation, the
failure log line, and the `time.sleep` delay. -/
inductive Effect where
  | httpGet : Int → Effect
  | invoke : Int → Effect
  | log : String → Effect
  | sleep : Nat → Effect
deriving DecidableEq, Repr

/-! ### RecordBuilder loop bodies (`rp_tables.py`) -/

/-- Loop body of `ValuationHistory.extract`: one row dictionary to one
record, every field copied verbatim. -/
def valuationFromDict (d : Dict) : Except PyErr ValuationHistory := do
  let y ← dget d "year"
  let mv ← dget d "market_value"
  let tmv ← dget d "taxable_market_value"
  let ga ← dget d "gross_assessed"
  let ex ← dget d "exemption"
  let na ← dget d "net_assessed"
  let mi ← dget d "millage"
  let tx ← dget d "tax"
  let ts ← dget d "tax_savings"
  .ok { year := y, market_value := mv, taxable_market_value := tmv, gross_assessed := ga,
        exemption := ex, net_assessed := na, millage := mi, tax := tx, tax_savings := ts }

/-- Loop body of `DeedTransaction.extract`: `date` goes through
`datetime.strptime(d['date'], "%m/%d/%Y")`, the rest is copied verbatim. -/
def deedFromDict (d : Dict) : Except PyErr DeedTransaction := do
  let dateRaw ← dget d "date"
  let s ← asStr dateRaw
  let ymd ← (strptimeMDY s).mapError PyErr.valueError
  let ty ← dget d "type"
  let bk ← dget d "book"
  let pg ← dget d "page"
  let pr ← dget d "price"
  let gor ← dget d "grantor"
  let gee ← dget d "grantee"
  .ok { date := PyVal.vdate ymd.1 ymd.2.1 ymd.2.2, type := ty, book := bk, page := pg,
        price := pr, grantor := gor, grantee := gee }

/-- Loop body of `BuildingPermit.extract`: `date` goes through
`datetime.strptime(d['date'], "%m/%d/%Y")`, the rest is copied verbatim. -/
def permitFromDict (d : Dict) : Except PyErr BuildingPermit := do
  let dateRaw ← dget d "date"
  let s ← asStr dateRaw
  let ymd ← (strptimeMDY s).mapError PyErr.valueError
  let pn ← dget d "permit_number"
  let pb ← dget d "provided_by"
  let bn ← dget d "building_number"
  let ds ← dget d "description"
  let ec ← dget d "estimated_cost"
  let st ← dget d "status"
  .ok { date := PyVal.vdate ymd.1 ymd.2.1 ymd.2.2, permit_number := pn, provided_by := pb,
        building_number := bn, description := ds, estimated_cost := ec, status := st }

/-- The `for d in dicts: ... list.append(v)` loop: build every row in
order, propagating the first error. -/
def buildAll {α β : Type} (f : α → Except PyErr β) : List α → Except PyErr (List β)
  | [] => .ok []
  | d :: ds => do
    let v ← f d
    let vs ← buildAll f ds
    .ok (v :: vs)

/-! ### The parse phase of `RealProperty.extractRealPropertyData`
(lines 80-135), one helper per access idiom and one step per table row. -/

/-- Python list indexing: `xs[i]` or `IndexError`. -/
def lidx {α : Type} (xs : List α) (i : Nat) : Except PyErr α :=
  match xs.get? i with
  | some x => .ok x
  | none => .error .indexError

/-- Attribute access on a possibly-`None` tag (`None.foo` raises
`AttributeError`). -/
def orAttrH : Option Html → Except PyErr Html
  | some h => .ok h
  | none => .error .attributeError

/-- Method call on a possibly-`None` string. -/
def orAttrS : Option String → Except PyErr String
  | some s => .ok s
  | none => .error .attributeError

/-- `td.font.string.strip()`. -/
def fontStrStrip (td : Html) : Except PyErr String := do
  let f ← orAttrH (findTag "font" td)
  let s ← orAttrS (nodeString f)
  .ok s.trim

/-- `td.font.font.string.strip()`. -/
def fontFontStrStrip (td : Html) : Except PyErr String := do
  let f1 ← orAttrH (findTag "font" td)
  let f2 ← orAttrH (findTag "font" f1)
  let s ← orAttrS (nodeString f2)
  .ok s.trim

/-- `' '.join(td.font.string.split())`. -/
def fontStrJoin (td : Html) : Except PyErr String := do
  let f ← orAttrH (findTag "font" td)
  let s ← orAttrS (nodeString f)
  .ok (pyCollapse s)

/-- `' '.join(td.a.string.split())`. -/
def aStrJoin (td : Html) : Except PyErr String := do
  let f ← orAttrH (findTag "a" td)
  let s ← orAttrS (nodeString f)
  .ok (pyCollapse s)

/-- `td.input['value']` (`None[...]` raises `TypeError`, a missing
attribute raises `KeyError`). -/
def inputValue (td : Html) : Except PyErr String :=
  match findTag "input" td with
  | none => .error .typeError
  | some inp =>
    match inp.attrsOf.find? (fun p => p.1 = "value") with
    | some p => .ok p.2
    | none => .error (.keyError "value")

/-- Lines 115-119: the land-size conditional.  The Square-Feet branch
assigns `get_float`'s result directly (possibly `None`); in the Acres
branch the value is bound first and then multiplied, so a matched group
that fails numeric conversion makes `None * 43560` raise a fatal
`TypeError`; with no match the field keeps its previous value. -/
def landSizeFrom (s : String) (prev : Option Rat) : Except PyErr (Option Rat) :=
  match reStarLit (" Square Feet".toList) s.toList with
  | some g => .ok (get_float (List.asString g))
  | none =>
    match reStarLit (" Acres".toList) s.toList with
    | some g =>
      match get_float (List.asString g) with
      | some q => .ok (some (q * 43560))
      | none => .error .typeError
    | none => .ok prev

/-- Lines 133-135: `re.findall(...)[0]` — an empty match list raises
`IndexError`. -/
def subdivisionBlockLot (s : String) : Except PyErr (String × String × String) :=
  match reFindSub s.toList with
  | some (a, b, l) => .ok (List.asString a, List.asString b, List.asString l)
  | none => .error .indexError

/-- Row 0: account number, property type, location. -/
def row0Step (rows : List Html) (s : RealProperty) : Except PyErr RealProperty := do
  let r ← lidx rows 0
  let tds := findAllTag "td" r
  let t0 ← lidx tds 0
  let acct ← fontFontStrStrip t0
  let t1 ← lidx tds 1
  let pt ← fontFontStrStrip t1
  let t4 ← lidx tds 4
  let loc ← fontStrStrip t4
  .ok { s with account_number := some acct, property_type := some pt, location := some loc }

/-- Row 1: building name / occupant, city. -/
def row1Step (rows : List Html) (s : RealProperty) : Except PyErr RealProperty := do
  let r ← lidx rows 1
  let tds := findAllTag "td" r
  let t1 ← lidx tds 1
  let bno ← fontStrStrip t1
  let t3 ← lidx tds 3
  let cty ← fontStrStrip t3
  .ok { s with building_name_occupant := some bno, city := some cty }

/-- Row 2: first owner name, quarter section (lenient integer). -/
def row2Step (rows : List Html) (s : RealProperty) : Except PyErr RealProperty := do
  let r ← lidx rows 2
  let tds := findAllTag "td" r
  let t1 ← lidx tds 1
  let o1 ← fontStrStrip t1
  let t3 ← lidx tds 3
  let qs ← fontStrStrip t3
  .ok { s with owner_name_1 := some o1, quarter_section := get_int qs }

/-- Row 3: second owner name, parent account. -/
def row3Step (rows : List Html) (s : RealProperty) : Except PyErr RealProperty := do
  let r ← lidx rows 3
  let tds := findAllTag "td" r
  let t1 ← lidx tds 1
  let o2 ← fontStrStrip t1
  let t3 ← lidx tds 3
  let pa ← fontStrStrip t3
  .ok { s with owner_name_2 := some o2, parent_acct := some pa }

/-- Row 4: first billing-address line, tax district from the form input. -/
def row4Step (rows : List Html) (s : RealProperty) : Except PyErr RealProperty := do
  let r ← lidx rows 4
  let tds := findAllTag "td" r
  let t1 ← lidx tds 1
  let b1 ← fontStrStrip t1
  let t3 ← lidx tds 3
  let txd ← inputValue t3
  .ok { s with billing_address_1 := some b1, tax_district := some txd }

/-- Row 5: second billing-address line, school system. -/
def row5Step (rows : List Html) (s : RealProperty) : Except PyErr RealProperty := do
  let r ← lidx rows 5
  let tds := findAllTag "td" r
  let t1 ← lidx tds 1
  let b2 ← fontStrStrip t1
  let t3 ← lidx tds 3
  let ss ← fontStrStrip t3
  .ok { s with billing_address_2 := some b2, school_system := some ss }

/-- Row 6: city/state/zip, the land-size text and its parsed value. -/
def row6Step (rows : List Html) (s : RealProperty) : Except PyErr RealProperty := do
  let r ← lidx rows 6
  let tds := findAllTag "td" r
  let t1 ← lidx tds 1
  let csz ← fontStrJoin t1
  let t3 ← lidx tds 3
  let lss ← fontStrJoin t3
  let ls ← landSizeFrom lss s.land_size
  .ok { s with city_state_zip := some csz, land_size_str := some lss, land_size := ls }

/-- Row 7: land value from the second font (lenient integer). -/
def row7Step (rows : List Html) (s : RealProperty) : Except PyErr RealProperty := do
  let r ← lidx rows 7
  let tds := findAllTag "td" r
  let t1 ← lidx tds 1
  let f1 ← lidx (findAllTag "font" t1) 1
  let lvs ← orAttrS (nodeString f1)
  .ok { s with land_value := get_int lvs.trim }

/-- Row 9 (row 8 is skipped): quarter-section description, then the
subdivision/block/lot triple from one composite anchor string. -/
def row9Step (rows : List Html) (s : RealProperty) : Except PyErr RealProperty := do
  let r ← lidx rows 9
  let tds := findAllTag "td" r
  let t0 ← lidx tds 0
  let qsd ← fontStrJoin t0
  let t1 ← lidx tds 1
  let sbl ← aStrJoin t1
  let g ← subdivisionBlockLot sbl
  .ok { s with quarter_section_description := some qsd,
               subdivision := some g.1, block := some g.2.1, lot := some g.2.2 }

/-- Lines 86-135: the whole per-row sweep. -/
def parseRows (rows : List Html) (s : RealProperty) : Except PyErr RealProperty :=
  row0Step rows s >>= row1Step rows >>= row2Step rows >>= row3Step rows >>=
    row4Step rows >>= row5Step rows >>= row6Step rows >>= row7Step rows >>= row9Step rows

/-- Line 84: `kwargs['propertyid']`. -/
def getKwPid (kw : Kwargs) : Except PyErr Int :=
  match kw.propertyid with
  | some p => .ok p
  | none => .error (.keyError "propertyid")

/-- Lines 80-135: parse the fetched markup and populate `self`.  The table
is the 4th on the page; `propertyid` is read from `kwargs` unconditionally
(line 84) before the rows are processed. -/
def parseBody (doc : Html) (kw : Kwargs) (self : RealProperty) : Except PyErr RealProperty := do
  let t3 ← lidx (findAllTag "table" doc) 3
  let tb ← orAttrH (findTag "tbody" t3)
  let rows := findAllTag "tr" tb
  let pid ← getKwPid kw
  parseRows rows { self with propertyid := some pid }

/-- Lines 63-135: the whole method.  `oracle i` is the outcome of the
`i`-th `requests.get` (a transient exception or the fetched markup); `fuel`
bounds the retry recursion, `none` meaning the call is still retrying when
the fuel runs out.  The early `return None` of the no-argument branch and
the implicit `return None` after a successful parse both leave the final
`self` in the `Except`. -/
def extractRealPropertyData (oracle : Nat → Except String Html) (kw : Kwargs)
    (self : RealProperty) : Nat → Nat → List Effect × Option (Except PyErr RealProperty)
  | _, 0 => ([], none)
  | attempt, fuel + 1 =>
    match kw.property_html with
    | some html => ([], some (parseBody html kw self))
    | none =>
      match kw.propertyid with
      | some pid =>
        match oracle attempt with
        | .ok html => ([.httpGet pid], some (parseBody html kw self))
        | .error e =>
          let rest := extractRealPropertyData oracle { property_html := none, propertyid := some pid }
            self (attempt + 1) fuel
          (.httpGet pid :: .log ("Exception caught: " ++ e) :: .sleep 10 :: rest.1, rest.2)
      | none => ([], some (.ok self))

/-- `ValuationHistory.extract` (rp_tables.py lines 52-77): retry the
row-list fetch on transient failure, then build the records in order.
`oracle i` is the outcome of the `i`-th `get_tables.get_valuation_list`
call. -/
def ValuationHistory.extract (oracle : Nat → Except String (List Dict)) (pid : Int) :
    Nat → Nat → List Effect × Option (Except PyErr (List ValuationHistory))
  | _, 0 => ([], none)
  | attempt, fuel + 1 =>
    match oracle attempt with
    | .ok ds => ([.invoke pid], some (buildAll valuationFromDict ds))
    | .error e =>
      let rest := ValuationHistory.extract oracle pid (attempt + 1) fuel
      (.invoke pid :: .log ("Exception caught: " ++ e) :: .sleep 10 :: rest.1, rest.2)

/-! ### Concrete pages and rows used as witnesses -/

/-- A cell holding `<font>text</font>`. -/
def tdF (s : String) : Html := .elem "td" [] [.elem "font" [] [.text s]]

/-- A cell holding `<font><font>text</font></font>`. -/
def tdFF (s : String) : Html := .elem "td" [] [.elem "font" [] [.elem "font" [] [.text s]]]

def tdEmpty : Html := .elem "td" [] []

def exRows : List Html :=
  [ .elem "tr" [] [tdFF " R12345 ", tdFF " Residential ", tdEmpty, tdEmpty, tdF " 123 MAIN ST "],
    .elem "tr" [] [tdEmpty, tdF " OCCUPANT ", tdEmpty, tdF " OKLAHOMA CITY "],
    .elem "tr" [] [tdEmpty, tdF " SMITH JOHN ", tdEmpty, tdF " 25 "],
    .elem "tr" [] [tdEmpty, tdF " SMITH JANE ", tdEmpty, tdF " A999 "],
    .elem "tr" [] [tdEmpty, tdF " PO BOX 1 ", tdEmpty,
      .elem "td" [] [.elem "input" [("value", "TXD 100")] []]],
    .elem "tr" [] [tdEmpty, tdF " UNIT 2 ", tdEmpty, tdF " EDMOND "],
    .elem "tr" [] [tdEmpty, tdF "OKLAHOMA  CITY OK  73101", tdEmpty, tdF "5 Acres"],
    .elem "tr" [] [tdEmpty,
      .elem "td" [] [.elem "font" [] [.text "Land Value"], .elem "font" [] [.text " $12,345 "]]],
    .elem "tr" [] [],
    .elem "tr" [] [tdF "NE  4",
      .elem "td" [] [.elem "a" [] [.text "Elm Heights Block 3A Lot 12"]]] ]

def fillerTable : Html := .elem "table" [] []

/-- A well-formed primary-record page: the 4th table holds the record. -/
def goodHtml : Html :=
  .elem "[document]" []
    [.elem "html" [] [fillerTable, fillerTable, fillerTable,
      .elem "table" [] [.elem "tbody" [] exRows]]]

/-- A page with only three tables: the expected 4th table is absent. -/
def threeTableHtml : Html :=
  .elem "[document]" [] [.elem "html" [] [fillerTable, fillerTable, fillerTable]]

/-- Four tables, but the record table has an empty body: row 0 is missing. -/
def emptyTbodyHtml : Html :=
  .elem "[document]" []
    [.elem "html" [] [fillerTable, fillerTable, fillerTable,
      .elem "table" [] [.elem "tbody" [] []]]]

/-- Four tables and a first row, but the row has no cells. -/
def noCellHtml : Html :=
  .elem "[document]" []
    [.elem "html" [] [fillerTable, fillerTable, fillerTable,
      .elem "table" [] [.elem "tbody" [] [.elem "tr" [] []]]]]

/-- A valuation row dictionary with every expected key. -/
def exValuationDict : Dict :=
  [("year", .vint 2020), ("market_value", .vint 100000), ("taxable_market_value", .vint 95000),
   ("gross_assessed", .vint 11000), ("exemption", .vint 1000), ("net_assessed", .vint 10000),
   ("millage", .vfloat (1131 / 10)), ("tax", .vfloat (2263 / 2)), ("tax_savings", .vfloat 121)]

/-- A deed row dictionary with every expected key. -/
def exDeedDict : Dict :=
  [("date", .vstr "01/15/2021"), ("type", .vstr "WD"), ("book", .vint 1381), ("page", .vint 22),
   ("price", .vint 250000), ("grantor", .vstr "SMITH JOHN"), ("grantee", .vstr "DOE JANE")]

/-- A permit row dictionary with every expected key. -/
def exPermitDict : Dict :=
  [("date", .vstr "03/02/2019"), ("permit_number", .vstr "BP-77"), ("provided_by", .vstr "OKC"),
   ("building_number", .vint 1), ("description", .vstr "ROOF"), ("estimated_cost", .vint 9000),
   ("status", .vstr "CLOSED")]

/-- An oracle that fails transiently once and then succeeds. -/
def exValOracle : Nat → Except String (List Dict) := fun i =>
  if i = 0 then .error "connection reset" else .ok [exValuationDict]

/-- A fetch oracle that fails transiently once and then serves the page. -/
def exFetchOracle : Nat → Except String Html := fun i =>
  if i = 0 then .error "connection timed out" else .ok goodHtml

/-- `kwargs = {'property_html': h}`: pre-fetched markup only. -/
def kwMarkup (h : Html) : Kwargs := { property_html := some h, propertyid := none }

/-- `kwargs = {'propertyid': p}`: identifier only. -/
def kwPid (p : Int) : Kwargs := { property_html := none, propertyid := some p }

/-- Expected effect trace of `ValuationHistory.extract` with `k` transient
failures (messages `msgs 0 .. msgs (k-1)`) before the successful attempt:
every invocation carries the same `pid`, and every failure is followed by a
log line and a fixed 10-unit sleep. -/
def valTrace (pid : Int) (msgs : Nat → String) : Nat → List Effect
  | 0 => [.invoke pid]
  | k + 1 =>
    .invoke pid :: .log ("Exception caught: " ++ msgs 0) :: .sleep 10 ::
      valTrace pid (fun i => msgs (i + 1)) k

/-- Expected effect trace of the `extractRealPropertyData` fetch with `k`
transient failures before the successful attempt. -/
def fetchTrace (pid : Int) (msgs : Nat → String) : Nat → List Effect
  | 0 => [.httpGet pid]
  | k + 1 =>
    .httpGet pid :: .log ("Exception caught: " ++ msgs 0) :: .sleep 10 ::
      fetchTrace pid (fun i => msgs (i + 1)) k

/-- The record produced by parsing `goodHtml` with identifier 2. -/
def exRecord : RealProperty := (parseBody goodHtml (kwPid 2) {}).toOption.getD {}

/-! ## Helper lemmas -/

theorem exBind_ok {α β : Type} {e : Except PyErr α} {f : α → Except PyErr β} {b : β}
    (h : e >>= f = .ok b) : ∃ a, e = .ok a ∧ f a = .ok b := by
  cases e with
  | ok a => exact ⟨a, rfl, h⟩
  | error ε =>
    simp only [show (Except.error ε >>= f : Except PyErr β) = Except.error ε from rfl] at h
    exact Except.noConfusion h

theorem ok_bind {α β : Type} (a : α) (f : α → Except PyErr β) :
    (Except.ok a >>= f : Except PyErr β) = f a := rfl

theorem err_bind {α β : Type} (ε : PyErr) (f : α → Except PyErr β) :
    (Except.error ε >>= f : Except PyErr β) = Except.error ε := rfl

theorem row0Step_pid {rows : List Html} {s r : RealProperty} (h : row0Step rows s = .ok r) :
    r.propertyid = s.propertyid := by
  unfold row0Step at h
  obtain ⟨x1, _, h⟩ := exBind_ok h
  obtain ⟨x2, _, h⟩ := exBind_ok h
  obtain ⟨x3, _, h⟩ := exBind_ok h
  obtain ⟨x4, _, h⟩ := exBind_ok h
  obtain ⟨x5, _, h⟩ := exBind_ok h
  obtain ⟨x6, _, h⟩ := exBind_ok h
  obtain ⟨x7, _, h⟩ := exBind_ok h
  cases h
  rfl

theorem row1Step_pid {rows : List Html} {s r : RealProperty} (h : row1Step rows s = .ok r) :
    r.propertyid = s.propertyid := by
  unfold row1Step at h
  obtain ⟨x1, _, h⟩ := exBind_ok h
  obtain ⟨x2, _, h⟩ := exBind_ok h
  obtain ⟨x3, _, h⟩ := exBind_ok h
  obtain ⟨x4, _, h⟩ := exBind_ok h
  obtain ⟨x5, _, h⟩ := exBind_ok h
  cases h
  rfl

theorem row2Step_pid {rows : List Html} {s r : RealProperty} (h : row2Step rows s = .ok r) :
    r.propertyid = s.propertyid := by
  unfold row2Step at h
  obtain ⟨x1, _, h⟩ := exBind_ok h
  obtain ⟨x2, _, h⟩ := exBind_ok h
  obtain ⟨x3, _, h⟩ := exBind_ok h
  obtain ⟨x4, _, h⟩ := exBind_ok h
  obtain ⟨x5, _, h⟩ := exBind_ok h
  cases h
  rfl

theorem row3Step_pid {rows : List Html} {s r : RealProperty} (h : row3Step rows s = .ok r) :
    r.propertyid = s.propertyid := by
  unfold row3Step at h
  obtain ⟨x1, _, h⟩ := exBind_ok h
  obtain ⟨x2, _, h⟩ := exBind_ok h
  obtain ⟨x3, _, h⟩ := exBind_ok h
  obtain ⟨x4, _, h⟩ := exBind_ok h
  obtain ⟨x5, _, h⟩ := exBind_ok h
  cases h
  rfl

theorem row4Step_pid {rows : List Html} {s r : RealProperty} (h : row4Step rows s = .ok r) :
    r.propertyid = s.propertyid := by
  unfold row4Step at h
  obtain ⟨x1, _, h⟩ := exBind_ok h
  obtain ⟨x2, _, h⟩ := exBind_ok h
  obtain ⟨x3, _, h⟩ := exBind_ok h
  obtain ⟨x4, _, h⟩ := exBind_ok h
  obtain ⟨x5, _, h⟩ := exBind_ok h
  cases h
  rfl

theorem row5Step_pid {rows : List Html} {s r : RealProperty} (h : row5Step rows s = .ok r) :
    r.propertyid = s.propertyid := by
  unfold row5Step at h
  obtain ⟨x1, _, h⟩ := exBind_ok h
  obtain ⟨x2, _, h⟩ := exBind_ok h
  obtain ⟨x3, _, h⟩ := exBind_ok h
  obtain ⟨x4, _, h⟩ := exBind_ok h
  obtain ⟨x5, _, h⟩ := exBind_ok h
  cases h
  rfl

theorem row6Step_pid {rows : List Html} {s r : RealProperty} (h : row6Step rows s = .ok r) :
    r.propertyid = s.propertyid := by
  unfold row6Step at h
  obtain ⟨x1, _, h⟩ := exBind_ok h
  obtain ⟨x2, _, h⟩ := exBind_ok h
  obtain ⟨x3, _, h⟩ := exBind_ok h
  obtain ⟨x4, _, h⟩ := exBind_ok h
  obtain ⟨x5, _, h⟩ := exBind_ok h
  obtain ⟨x6, _, h⟩ := exBind_ok h
  cases h
  rfl

theorem row7Step_pid {rows : List Html} {s r : RealProperty} (h : row7Step rows s = .ok r) :
    r.propertyid = s.propertyid := by
  unfold row7Step at h
  obtain ⟨x1, _, h⟩ := exBind_ok h
  obtain ⟨x2, _, h⟩ := exBind_ok h
  obtain ⟨x3, _, h⟩ := exBind_ok h
  obtain ⟨x4, _, h⟩ := exBind_ok h
  cases h
  rfl

theorem row9Step_pid {rows : List Html} {s r : RealProperty} (h : row9Step rows s = .ok r) :
    r.propertyid = s.propertyid := by
  unfold row9Step at h
  obtain ⟨x1, _, h⟩ := exBind_ok h
  obtain ⟨x2, _, h⟩ := exBind_ok h
  obtain ⟨x3, _, h⟩ := exBind_ok h
  obtain ⟨x4, _, h⟩ := exBind_ok h
  obtain ⟨x5, _, h⟩ := exBind_ok h
  obtain ⟨x6, _, h⟩ := exBind_ok h
  cases h
  rfl

theorem parseRows_pid {rows : List Html} {s r : RealProperty} (h : parseRows rows s = .ok r) :
    r.propertyid = s.propertyid := by
  unfold parseRows at h
  obtain ⟨s8, h8, h9⟩ := exBind_ok h
  obtain ⟨s7, h7, h8⟩ := exBind_ok h8
  obtain ⟨s6, h6, h7⟩ := exBind_ok h7
  obtain ⟨s5, h5, h6⟩ := exBind_ok h6
  obtain ⟨s4, h4, h5⟩ := exBind_ok h5
  obtain ⟨s3, h3, h4⟩ := exBind_ok h4
  obtain ⟨s2, h2, h3⟩ := exBind_ok h3
  obtain ⟨s1, h1, h2⟩ := exBind_ok h2
  rw [row9Step_pid h9, row7Step_pid h8, row6Step_pid h7, row5Step_pid h6, row4Step_pid h5,
    row3Step_pid h4, row2Step_pid h3, row1Step_pid h2, row0Step_pid h1]

/-- A successful parse always stores the identifier supplied in `kwargs`
(the unconditional assignment on line 84). -/
theorem parseBody_pid_set {doc : Html} {kw : Kwargs} {self r : RealProperty} {pid : Int}
    (hkw : kw.propertyid = some pid) (h : parseBody doc kw self = .ok r) :
    r.propertyid = some pid := by
  unfold parseBody at h
  obtain ⟨t3, _, h⟩ := exBind_ok h
  obtain ⟨tb, _, h⟩ := exBind_ok h
  obtain ⟨p, hp, h⟩ := exBind_ok h
  unfold getKwPid at hp
  rw [hkw] at hp
  cases hp
  exact parseRows_pid h

/-- When `kwargs` has no `propertyid` key, the parse phase can never
succeed: either an earlier structural access fails, or the key lookup on
line 84 raises `KeyError`. -/
theorem parseBody_no_pid (doc : Html) (kw : Kwargs) (self : RealProperty)
    (hkw : kw.propertyid = none) : (parseBody doc kw self).isOk = false := by
  unfold parseBody
  cases h3 : lidx (findAllTag "table" doc) 3 with
  | error ε => rw [err_bind]; rfl
  | ok t3 =>
    rw [ok_bind]
    cases htb : orAttrH (findTag "tbody" t3) with
    | error ε => rw [err_bind]; rfl
    | ok tb =>
      rw [ok_bind]
      have : getKwPid kw = Except.error (.keyError "propertyid") := by
        unfold getKwPid; rw [hkw]
      rw [this, err_bind]
      rfl

/-- Fewer than four tables on the page: the indexing on line 81 fails at
once with `IndexError`. -/
theorem parseBody_tableMissing (doc : Html) (kw : Kwargs) (self : RealProperty)
    (hlt : (findAllTag "table" doc).length < 4) :
    parseBody doc kw self = .error .indexError := by
  unfold parseBody
  have h3 : lidx (findAllTag "table" doc) 3 = Except.error PyErr.indexError := by
    unfold lidx
    rw [List.get?_eq_none.mpr (by omega)]
  rw [h3, err_bind]

/-! ## Claims -/

/-- C10: a call of `extractRealPropertyData` that supplies neither a record
identifier nor pre-fetched markup returns `None` without raising (the early
`return None` on line 77), performs no network request, and populates no
record field (`self` is returned untouched). -/
theorem spec2_c10 (oracle : Nat → Except String Html) (self : RealProperty)
    (attempt fuel : Nat) :
    extractRealPropertyData oracle {} self attempt (fuel + 1) = ([], some (.ok self)) := rfl

/-- C4: a call that supplies only pre-fetched markup (`property_html`) and
no identifier can never complete successfully: for every markup the parse
either fails structurally before line 84 or hits the `KeyError` of the
unconditional `kwargs['propertyid']` lookup there; on a fully well-formed
page the error is exactly that `KeyError`.  The full method performs no
fetch in this branch and surfaces the error. -/
theorem spec2_c4 :
    (∀ (doc : Html) (self : RealProperty), (parseBody doc (kwMarkup doc) self).isOk = false) ∧
    (∀ (doc : Html) (self : RealProperty) (oracle : Nat → Except String Html) (attempt fuel : Nat),
      extractRealPropertyData oracle (kwMarkup doc) self attempt (fuel + 1) =
        ([], some (parseBody doc (kwMarkup doc) self))) ∧
    parseBody goodHtml (kwMarkup goodHtml) {} = .error (.keyError "propertyid") := by
  refine ⟨fun doc self => parseBody_no_pid doc (kwMarkup doc) self rfl, fun _ _ _ _ _ => rfl, ?_⟩
  rfl

/-- C2: when the expected 4th table is absent the parse fails at once with
`IndexError`; through the full method this error is surfaced after a single
fetch, with no retry, no log and no sleep.  A missing row (empty table
body) or a missing cell (row without `td` elements) likewise fails with
`IndexError`. -/
theorem spec2_c2 :
    (∀ (doc : Html) (kw : Kwargs) (self : RealProperty),
      (findAllTag "table" doc).length < 4 → parseBody doc kw self = .error .indexError) ∧
    (∀ (doc : Html) (self : RealProperty) (pid : Int) (oracle : Nat → Except String Html)
      (attempt fuel : Nat), oracle attempt = .ok doc → (findAllTag "table" doc).length < 4 →
      extractRealPropertyData oracle (kwPid pid) self attempt (fuel + 1) =
        ([.httpGet pid], some (.error .indexError))) ∧
    parseBody emptyTbodyHtml (kwPid 5) {} = .error .indexError ∧
    parseBody noCellHtml (kwPid 5) {} = .error .indexError := by
  refine ⟨fun doc kw self h => parseBody_tableMissing doc kw self h, ?_, rfl, rfl⟩
  intro doc self pid oracle attempt fuel hor hlt
  show (match (kwPid pid).property_html with
    | some html => ([], some (parseBody html (kwPid pid) self))
    | none => match (kwPid pid).propertyid with
      | some p =>
        match oracle attempt with
        | .ok html => ([Effect.httpGet p], some (parseBody html (kwPid pid) self))
        | .error e =>
          let rest := extractRealPropertyData oracle { property_html := none, propertyid := some p }
            self (attempt + 1) fuel
          (Effect.httpGet p :: Effect.log ("Exception caught: " ++ e) :: Effect.sleep 10 :: rest.1,
            rest.2)
      | none => ([], some (.ok self))) = ([Effect.httpGet pid], some (.error .indexError))
  rw [show (kwPid pid).property_html = none from rfl]
  rw [show (kwPid pid).propertyid = some pid from rfl]
  rw [hor]
  show ([Effect.httpGet pid], some (parseBody doc (kwPid pid) self)) =
    ([Effect.httpGet pid], some (Except.error PyErr.indexError))
  rw [parseBody_tableMissing doc (kwPid pid) self hlt]

/-- Witness for C2 at a concrete three-table page. -/
theorem spec2_c2_witness :
    (findAllTag "table" threeTableHtml).length < 4 ∧
    extractRealPropertyData (fun _ => .ok threeTableHtml) (kwPid 5) {} 0 3 =
      ([.httpGet 5], some (.error .indexError)) := by
  refine ⟨by decide, spec2_c2.2.1 threeTableHtml {} 5 (fun _ => .ok threeTableHtml) 0 2 rfl (by decide)⟩

/-- C9 fails on the code: line 84 assigns `propertyid` unconditionally, so
a second successful extraction with a different identifier overwrites an
already-set identifier (here: 1 becomes 2). -/
theorem spec2_c9_counterexample :
    (parseBody goodHtml (kwPid 1) {}).map (fun r => r.propertyid) = .ok (some 1) ∧
    ((parseBody goodHtml (kwPid 1) {}) >>= parseBody goodHtml (kwPid 2)).map
      (fun r => r.propertyid) = .ok (some 2) := ⟨rfl, rfl⟩

/-- C9 (amended): every successful extraction sets `propertyid` to the
identifier supplied in that call; consequently repeated extraction with the
same identifier never changes the field, but extraction with a different
identifier overwrites it. -/
theorem spec2_c9 :
    (∀ (doc : Html) (kw : Kwargs) (self r : RealProperty) (pid : Int),
      kw.propertyid = some pid → parseBody doc kw self = .ok r → r.propertyid = some pid) ∧
    (∀ (doc : Html) (kw : Kwargs) (self r : RealProperty) (pid : Int),
      kw.propertyid = some pid → self.propertyid = some pid →
      parseBody doc kw self = .ok r → r.propertyid = self.propertyid) := by
  constructor
  · intro doc kw self r pid hkw h
    exact parseBody_pid_set hkw h
  · intro doc kw self r pid hkw hself h
    rw [parseBody_pid_set hkw h, hself]

/-- Witness for C9 at the concrete well-formed page. -/
theorem spec2_c9_witness :
    (kwPid 2).propertyid = some 2 ∧ parseBody goodHtml (kwPid 2) {} = .ok exRecord ∧
    exRecord.propertyid = some 2 :=
  ⟨rfl, rfl, spec2_c9.1 goodHtml (kwPid 2) {} exRecord 2 rfl rfl⟩

theorem valExtract_retry (k : Nat) : ∀ (oracle : Nat → Except String (List Dict)) (pid : Int)
    (msgs : Nat → String) (s j : Nat) (ds : List Dict),
    (∀ i, i < k → oracle (s + i) = .error (msgs i)) → oracle (s + k) = .ok ds →
    ValuationHistory.extract oracle pid s (k + 1 + j) =
      (valTrace pid msgs k, some (buildAll valuationFromDict ds)) := by
  induction k with
  | zero =>
    intro oracle pid msgs s j ds hfail hok
    rw [show (0 : Nat) + 1 + j = j + 1 from by omega]
    rw [show s + 0 = s from rfl] at hok
    unfold ValuationHistory.extract
    rw [hok]
    rfl
  | succ k ih =>
    intro oracle pid msgs s j ds hfail hok
    have h0 : oracle s = .error (msgs 0) := by
      have := hfail 0 (Nat.succ_pos k)
      rwa [show s + 0 = s from rfl] at this
    rw [show k + 1 + 1 + j = (k + 1 + j) + 1 from by omega]
    unfold ValuationHistory.extract
    rw [h0]
    have hrest := ih oracle pid (fun i => msgs (i + 1)) (s + 1) j ds
      (fun i hi => by
        have := hfail (i + 1) (by omega)
        rwa [show s + (i + 1) = s + 1 + i from by omega] at this)
      (by rwa [show s + 1 + k = s + (k + 1) from by omega])
    simp only [hrest]
    rfl

theorem valExtract_forever (fuel : Nat) : ∀ (oracle : Nat → Except String (List Dict))
    (pid : Int) (s : Nat), (∀ i, ∃ m, oracle i = .error m) →
    (ValuationHistory.extract oracle pid s fuel).2 = none := by
  induction fuel with
  | zero => intro oracle pid s _; rfl
  | succ fuel ih =>
    intro oracle pid s h
    obtain ⟨m, hm⟩ := h s
    unfold ValuationHistory.extract
    rw [hm]
    exact ih oracle pid (s + 1) h

theorem rpdExtract_retry (k : Nat) : ∀ (oracle : Nat → Except String Html) (pid : Int)
    (msgs : Nat → String) (self : RealProperty) (s j : Nat) (doc : Html),
    (∀ i, i < k → oracle (s + i) = .error (msgs i)) → oracle (s + k) = .ok doc →
    extractRealPropertyData oracle (kwPid pid) self s (k + 1 + j) =
      (fetchTrace pid msgs k, some (parseBody doc (kwPid pid) self)) := by
  induction k with
  | zero =>
    intro oracle pid msgs self s j doc hfail hok
    rw [show (0 : Nat) + 1 + j = j + 1 from by omega]
    rw [show s + 0 = s from rfl] at hok
    unfold extractRealPropertyData
    rw [show (kwPid pid).property_html = none from rfl]
    rw [show (kwPid pid).propertyid = some pid from rfl]
    rw [hok]
    rfl
  | succ k ih =>
    intro oracle pid msgs self s j doc hfail hok
    have h0 : oracle s = .error (msgs 0) := by
      have := hfail 0 (Nat.succ_pos k)
      rwa [show s + 0 = s from rfl] at this
    rw [show k + 1 + 1 + j = (k + 1 + j) + 1 from by omega]
    unfold extractRealPropertyData
    rw [show (kwPid pid).property_html = none from rfl]
    rw [show (kwPid pid).propertyid = some pid from rfl]
    rw [h0]
    have hrest := ih oracle pid (fun i => msgs (i + 1)) self (s + 1) j doc
      (fun i hi => by
        have := hfail (i + 1) (by omega)
        rwa [show s + (i + 1) = s + 1 + i from by omega] at this)
      (by rwa [show s + 1 + k = s + (k + 1) from by omega])
    show (Effect.httpGet pid :: Effect.log ("Exception caught: " ++ msgs 0) :: Effect.sleep 10 ::
        (extractRealPropertyData oracle (kwPid pid) self (s + 1) (k + 1 + j)).1,
      (extractRealPropertyData oracle (kwPid pid) self (s + 1) (k + 1 + j)).2) = _
    rw [hrest]
    rfl

theorem valTrace_invoke_count (pid : Int) (k : Nat) : ∀ msgs,
    (valTrace pid msgs k).count (.invoke pid) = k + 1 := by
  induction k with
  | zero => intro msgs; simp [valTrace]
  | succ k ih => intro msgs; simp [valTrace, List.count_cons, ih]

theorem valTrace_sleep_count (pid : Int) (k : Nat) : ∀ msgs,
    (valTrace pid msgs k).count (.sleep 10) = k := by
  induction k with
  | zero => intro msgs; simp [valTrace]
  | succ k ih => intro msgs; simp [valTrace, List.count_cons, ih]

theorem valTrace_invoke_mem (pid q : Int) (k : Nat) : ∀ msgs,
    Effect.invoke q ∈ valTrace pid msgs k → q = pid := by
  induction k with
  | zero =>
    intro msgs h
    simp only [valTrace, List.mem_singleton] at h
    cases h
    rfl
  | succ k ih =>
    intro msgs h
    simp only [valTrace, List.mem_cons] at h
    rcases h with h | h | h | h
    · cases h; rfl
    · exact absurd h (by simp)
    · exact absurd h (by simp)
    · exact ih (fun i => msgs (i + 1)) h

/-- C1: transient network failures are retried transparently.  If the
row-list fetch fails transiently `k` times and then succeeds, the call
returns the post-recovery result (the failures are never surfaced); the
effect trace shows one log line and one fixed `sleep 10` per failure and
`k + 1` invocations, every one with the same `propertyid` argument; the
same holds for the page fetch of `extractRealPropertyData`; and when every
attempt fails the call never returns, whatever the fuel (no retry cap). -/
theorem spec2_c1 :
    (∀ (oracle : Nat → Except String (List Dict)) (pid : Int) (msgs : Nat → String)
      (k j : Nat) (ds : List Dict), (∀ i, i < k → oracle i = .error (msgs i)) →
      oracle k = .ok ds → ValuationHistory.extract oracle pid 0 (k + 1 + j) =
        (valTrace pid msgs k, some (buildAll valuationFromDict ds))) ∧
    (∀ (oracle : Nat → Except String Html) (pid : Int) (msgs : Nat → String)
      (self : RealProperty) (k j : Nat) (doc : Html),
      (∀ i, i < k → oracle i = .error (msgs i)) → oracle k = .ok doc →
      extractRealPropertyData oracle (kwPid pid) self 0 (k + 1 + j) =
        (fetchTrace pid msgs k, some (parseBody doc (kwPid pid) self))) ∧
    (∀ (pid : Int) (msgs : Nat → String) (k : Nat),
      (valTrace pid msgs k).count (.invoke pid) = k + 1 ∧
      (valTrace pid msgs k).count (.sleep 10) = k) ∧
    (∀ (pid q : Int) (msgs : Nat → String) (k : Nat),
      Effect.invoke q ∈ valTrace pid msgs k → q = pid) ∧
    (∀ (oracle : Nat → Except String (List Dict)) (pid : Int) (fuel : Nat),
      (∀ i, ∃ m, oracle i = .error m) →
      (ValuationHistory.extract oracle pid 0 fuel).2 = none) := by
  refine ⟨?_, ?_, ?_, ?_, ?_⟩
  · intro oracle pid msgs k j ds hfail hok
    exact valExtract_retry k oracle pid msgs 0 j ds
      (fun i hi => by simpa using hfail i hi) (by simpa using hok)
  · intro oracle pid msgs self k j doc hfail hok
    exact rpdExtract_retry k oracle pid msgs self 0 j doc
      (fun i hi => by simpa using hfail i hi) (by simpa using hok)
  · exact fun pid msgs k => ⟨valTrace_invoke_count pid k msgs, valTrace_sleep_count pid k msgs⟩
  · exact fun pid q msgs k => valTrace_invoke_mem pid q k msgs
  · exact fun oracle pid fuel h => valExtract_forever fuel oracle pid 0 h

/-- Witness for C1: one transient failure, then success; and an oracle
that always fails, on which the call is still retrying after any fuel. -/
theorem spec2_c1_witness :
    ValuationHistory.extract exValOracle 7 0 2 =
      (valTrace 7 (fun _ => "connection reset") 1, some (buildAll valuationFromDict [exValuationDict])) ∧
    (ValuationHistory.extract (fun _ => .error "host down") 9 0 5).2 = none := by
  constructor
  · have := spec2_c1.1 exValOracle 7 (fun _ => "connection reset") 1 0 [exValuationDict]
      (fun i hi => by interval_cases i; rfl) rfl
    simpa using this
  · exact spec2_c1.2.2.2.2 (fun _ => .error "host down") 9 5 (fun i => ⟨"host down", rfl⟩)

theorem buildAll_ok_length {α β : Type} {f : α → Except PyErr β} :
    ∀ {ds : List α} {rs : List β}, buildAll f ds = .ok rs → rs.length = ds.length := by
  intro ds
  induction ds with
  | nil =>
    intro rs h
    unfold buildAll at h
    cases h
    rfl
  | cons d ds ih =>
    intro rs h
    unfold buildAll at h
    obtain ⟨v, hv, h⟩ := exBind_ok h
    obtain ⟨vs, hvs, h⟩ := exBind_ok h
    cases h
    simp [ih hvs]

theorem buildAll_ok_get {α β : Type} {f : α → Except PyErr β} :
    ∀ {ds : List α} {rs : List β}, buildAll f ds = .ok rs →
    ∀ (i : Nat) (hi : i < ds.length) (hi2 : i < rs.length),
      f (ds.get ⟨i, hi⟩) = .ok (rs.get ⟨i, hi2⟩) := by
  intro ds
  induction ds with
  | nil => intro rs h i hi hi2; exact absurd hi (by simp)
  | cons d ds ih =>
    intro rs h i hi hi2
    unfold buildAll at h
    obtain ⟨v, hv, h⟩ := exBind_ok h
    obtain ⟨vs, hvs, h⟩ := exBind_ok h
    cases h
    cases i with
    | zero => exact hv
    | succ i => exact ih hvs i (Nat.lt_of_succ_lt_succ hi) (Nat.lt_of_succ_lt_succ hi2)

theorem valuationFromDict_fields {d : Dict} {y mv tmv ga ex na mi tx ts : PyVal}
    (h1 : dget d "year" = .ok y) (h2 : dget d "market_value" = .ok mv)
    (h3 : dget d "taxable_market_value" = .ok tmv) (h4 : dget d "gross_assessed" = .ok ga)
    (h5 : dget d "exemption" = .ok ex) (h6 : dget d "net_assessed" = .ok na)
    (h7 : dget d "millage" = .ok mi) (h8 : dget d "tax" = .ok tx)
    (h9 : dget d "tax_savings" = .ok ts) :
    valuationFromDict d = .ok ⟨y, mv, tmv, ga, ex, na, mi, tx, ts⟩ := by
  unfold valuationFromDict
  simp only [h1, h2, h3, h4, h5, h6, h7, h8, h9, ok_bind]

theorem deedFromDict_fields {d : Dict} {s : String} {y m dd : Nat} {ty bk pg pr gor gee : PyVal}
    (h1 : dget d "date" = .ok (.vstr s)) (h2 : strptimeMDY s = .ok (y, m, dd))
    (h3 : dget d "type" = .ok ty) (h4 : dget d "book" = .ok bk) (h5 : dget d "page" = .ok pg)
    (h6 : dget d "price" = .ok pr) (h7 : dget d "grantor" = .ok gor)
    (h8 : dget d "grantee" = .ok gee) :
    deedFromDict d = .ok ⟨.vdate y m dd, ty, bk, pg, pr, gor, gee⟩ := by
  unfold deedFromDict
  simp only [h1, h2, h3, h4, h5, h6, h7, h8, ok_bind, asStr, Except.mapError]

theorem permitFromDict_fields {d : Dict} {s : String} {y m dd : Nat}
    {pn pb bn dsc ec st : PyVal}
    (h1 : dget d "date" = .ok (.vstr s)) (h2 : strptimeMDY s = .ok (y, m, dd))
    (h3 : dget d "permit_number" = .ok pn) (h4 : dget d "provided_by" = .ok pb)
    (h5 : dget d "building_number" = .ok bn) (h6 : dget d "description" = .ok dsc)
    (h7 : dget d "estimated_cost" = .ok ec) (h8 : dget d "status" = .ok st) :
    permitFromDict d = .ok ⟨.vdate y m dd, pn, pb, bn, dsc, ec, st⟩ := by
  unfold permitFromDict
  simp only [h1, h2, h3, h4, h5, h6, h7, h8, ok_bind, asStr, Except.mapError]

/-- C8: building a `ValuationHistory` record from a row mapping copies each
of the nine values verbatim, and the record list built from a dictionary
list preserves its length and order. -/
theorem spec2_c8 :
    (∀ (d : Dict) (y mv tmv ga ex na mi tx ts : PyVal),
      dget d "year" = .ok y → dget d "market_value" = .ok mv →
      dget d "taxable_market_value" = .ok tmv → dget d "gross_assessed" = .ok ga →
      dget d "exemption" = .ok ex → dget d "net_assessed" = .ok na →
      dget d "millage" = .ok mi → dget d "tax" = .ok tx → dget d "tax_savings" = .ok ts →
      valuationFromDict d = .ok ⟨y, mv, tmv, ga, ex, na, mi, tx, ts⟩) ∧
    (∀ (ds : List Dict) (rs : List ValuationHistory), buildAll valuationFromDict ds = .ok rs →
      rs.length = ds.length ∧
      ∀ (i : Nat) (hi : i < ds.length) (hi2 : i < rs.length),
        valuationFromDict (ds.get ⟨i, hi⟩) = .ok (rs.get ⟨i, hi2⟩)) := by
  constructor
  · intro d y mv tmv ga ex na mi tx ts h1 h2 h3 h4 h5 h6 h7 h8 h9
    exact valuationFromDict_fields h1 h2 h3 h4 h5 h6 h7 h8 h9
  · intro ds rs h
    exact ⟨buildAll_ok_length h, buildAll_ok_get h⟩

/-- Witness for C8 at a concrete valuation row. -/
theorem spec2_c8_witness :
    dget exValuationDict "year" = .ok (.vint 2020) ∧
    valuationFromDict exValuationDict = .ok ⟨.vint 2020, .vint 100000, .vint 95000,
      .vint 11000, .vint 1000, .vint 10000, .vfloat (1131 / 10), .vfloat (2263 / 2),
      .vfloat 121⟩ :=
  ⟨rfl, spec2_c8.1 exValuationDict (.vint 2020) (.vint 100000) (.vint 95000) (.vint 11000)
    (.vint 1000) (.vint 10000) (.vfloat (1131 / 10)) (.vfloat (2263 / 2)) (.vfloat 121)
    rfl rfl rfl rfl rfl rfl rfl rfl rfl⟩

/-- C3 fails on the code: `DeedTransaction`'s builder does not copy the
`date` value 1:1 — it parses the text through `datetime.strptime`, so the
stored value differs from the mapping's value. -/
theorem spec2_c3_counterexample :
    dget exDeedDict "date" = .ok (.vstr "01/15/2021") ∧
    deedFromDict exDeedDict = .ok ⟨.vdate 2021 1 15, .vstr "WD", .vint 1381, .vint 22,
      .vint 250000, .vstr "SMITH JOHN", .vstr "DOE JANE"⟩ ∧
    PyVal.vdate 2021 1 15 ≠ PyVal.vstr "01/15/2021" := ⟨rfl, rfl, by decide⟩

/-- C3 (amended): the builders copy fields 1:1 with the exception of the
`date` field of `DeedTransaction` and `BuildingPermit`, which is parsed
from its text through `strptime("%m/%d/%Y")`; `ValuationHistory` copies
every field verbatim. -/
theorem spec2_c3 :
    (∀ (d : Dict) (y mv tmv ga ex na mi tx ts : PyVal),
      dget d "year" = .ok y → dget d "market_value" = .ok mv →
      dget d "taxable_market_value" = .ok tmv → dget d "gross_assessed" = .ok ga →
      dget d "exemption" = .ok ex → dget d "net_assessed" = .ok na →
      dget d "millage" = .ok mi → dget d "tax" = .ok tx → dget d "tax_savings" = .ok ts →
      valuationFromDict d = .ok ⟨y, mv, tmv, ga, ex, na, mi, tx, ts⟩) ∧
    (∀ (d : Dict) (s : String) (y m dd : Nat) (ty bk pg pr gor gee : PyVal),
      dget d "date" = .ok (.vstr s) → strptimeMDY s = .ok (y, m, dd) →
      dget d "type" = .ok ty → dget d "book" = .ok bk → dget d "page" = .ok pg →
      dget d "price" = .ok pr → dget d "grantor" = .ok gor → dget d "grantee" = .ok gee →
      deedFromDict d = .ok ⟨.vdate y m dd, ty, bk, pg, pr, gor, gee⟩) ∧
    (∀ (d : Dict) (s : String) (y m dd : Nat) (pn pb bn dsc ec st : PyVal),
      dget d "date" = .ok (.vstr s) → strptimeMDY s = .ok (y, m, dd) →
      dget d "permit_number" = .ok pn → dget d "provided_by" = .ok pb →
      dget d "building_number" = .ok bn → dget d "description" = .ok dsc →
      dget d "estimated_cost" = .ok ec → dget d "status" = .ok st →
      permitFromDict d = .ok ⟨.vdate y m dd, pn, pb, bn, dsc, ec, st⟩) := by
  refine ⟨?_, ?_, ?_⟩
  · intro d y mv tmv ga ex na mi tx ts h1 h2 h3 h4 h5 h6 h7 h8 h9
    exact valuationFromDict_fields h1 h2 h3 h4 h5 h6 h7 h8 h9
  · intro d s y m dd ty bk pg pr gor gee h1 h2 h3 h4 h5 h6 h7 h8
    exact deedFromDict_fields h1 h2 h3 h4 h5 h6 h7 h8
  · intro d s y m dd pn pb bn dsc ec st h1 h2 h3 h4 h5 h6 h7 h8
    exact permitFromDict_fields h1 h2 h3 h4 h5 h6 h7 h8

/-- Witness for C3 (amended) at a concrete permit row. -/
theorem spec2_c3_witness :
    dget exPermitDict "date" = .ok (.vstr "03/02/2019") ∧
    strptimeMDY "03/02/2019" = .ok (2019, 3, 2) ∧
    permitFromDict exPermitDict = .ok ⟨.vdate 2019 3 2, .vstr "BP-77", .vstr "OKC", .vint 1,
      .vstr "ROOF", .vint 9000, .vstr "CLOSED"⟩ :=
  ⟨rfl, rfl, spec2_c3.2.2 exPermitDict "03/02/2019" 2019 3 2 (.vstr "BP-77") (.vstr "OKC")
    (.vint 1) (.vstr "ROOF") (.vint 9000) (.vstr "CLOSED") rfl rfl rfl rfl rfl rfl rfl rfl⟩

theorem isPrefixOf_false_of_short {l1 l2 : List Char} (h : l2.length < l1.length) :
    l1.isPrefixOf l2 = false := by
  cases hb : l1.isPrefixOf l2 with
  | false => rfl
  | true => exact absurd (List.isPrefixOf_iff_prefix.mp hb).length_le (by omega)

theorem isPrefixOf_cons_false {x y : Char} {xs ys : List Char} (h : x ≠ y) :
    (x :: xs).isPrefixOf (y :: ys) = false := by
  show ((x == y) && xs.isPrefixOf ys) = false
  simp [h]

theorem reStarLit_short {lit : List Char} : ∀ {s : List Char}, s.length < lit.length →
    reStarLit lit s = none := by
  intro s
  induction s with
  | nil =>
    intro h
    have hp : lit.isPrefixOf ([] : List Char) = false :=
      isPrefixOf_false_of_short (by simpa using h)
    simp [reStarLit, hp]
  | cons c cs ih =>
    intro h
    have hc : cs.length < lit.length := by
      simp only [List.length_cons] at h
      omega
    have hp : lit.isPrefixOf (c :: cs) = false := isPrefixOf_false_of_short h
    simp [reStarLit, ih hc, hp]

theorem reStarLit_none_of_not_infix {lit : List Char} (hne : lit ≠ []) :
    ∀ {s : List Char}, ¬ (lit <:+: s) → reStarLit lit s = none := by
  intro s
  induction s with
  | nil =>
    intro h
    have hp : lit.isPrefixOf ([] : List Char) = false := by
      cases hb : lit.isPrefixOf ([] : List Char) with
      | false => rfl
      | true => exact absurd (List.prefix_nil.mp (List.isPrefixOf_iff_prefix.mp hb)) hne
    simp [reStarLit, hp]
  | cons c cs ih =>
    intro h
    rw [List.infix_cons_iff] at h
    push_neg at h
    have h1 : lit.isPrefixOf (c :: cs) = false := by
      cases hb : lit.isPrefixOf (c :: cs) with
      | false => rfl
      | true => exact absurd (List.isPrefixOf_iff_prefix.mp hb) h.1
    simp [reStarLit, h1, ih h.2]

theorem reStarLit_none_of_no_space {lt : List Char} :
    ∀ {s : List Char}, (∀ c ∈ s, c ≠ ' ') → reStarLit (' ' :: lt) s = none := by
  intro s
  induction s with
  | nil => intro _; rfl
  | cons c cs ih =>
    intro h
    have hc : c ≠ ' ' := h c (by simp)
    have h1 : (' ' :: lt).isPrefixOf (c :: cs) = false :=
      isPrefixOf_cons_false (fun he => hc he.symm)
    have h2 := ih (fun x hx => h x (List.mem_cons_of_mem c hx))
    by_cases hnl : c = '\n'
    · simp [reStarLit, hnl, h1]
    · simp [reStarLit, hnl, h1, h2]

theorem reStarLit_append {lt : List Char} :
    ∀ {N : List Char}, (∀ c ∈ N, c ≠ ' ' ∧ c ≠ '\n') →
    reStarLit (' ' :: lt) (N ++ ' ' :: lt) = some N := by
  intro N
  induction N with
  | nil =>
    intro _
    show reStarLit (' ' :: lt) (' ' :: lt) = some []
    have hrec : reStarLit (' ' :: lt) lt = none := reStarLit_short (by simp)
    have hpfx : (' ' :: lt).isPrefixOf (' ' :: lt) = true :=
      List.isPrefixOf_iff_prefix.mpr (List.prefix_refl _)
    simp [reStarLit, hrec, hpfx]
  | cons c N ih =>
    intro h
    have hc := h c (by simp)
    have hrec := ih (fun x hx => h x (by simp [hx]))
    show reStarLit (' ' :: lt) (c :: (N ++ ' ' :: lt)) = some (c :: N)
    simp [reStarLit, hc.2, hrec]

theorem reStarLit_append_other {lt mt : List Char}
    (hpfx : (' ' :: lt).isPrefixOf (' ' :: mt) = false) (hmt : ∀ c ∈ mt, c ≠ ' ') :
    ∀ {N : List Char}, (∀ c ∈ N, c ≠ ' ' ∧ c ≠ '\n') →
    reStarLit (' ' :: lt) (N ++ ' ' :: mt) = none := by
  intro N
  induction N with
  | nil =>
    intro _
    show reStarLit (' ' :: lt) (' ' :: mt) = none
    have hrec : reStarLit (' ' :: lt) mt = none := reStarLit_none_of_no_space hmt
    simp [reStarLit, hrec, hpfx]
  | cons c N ih =>
    intro h
    have hc := h c (by simp)
    have hrec := ih (fun x hx => h x (by simp [hx]))
    have h1 : (' ' :: lt).isPrefixOf (c :: (N ++ ' ' :: mt)) = false :=
      isPrefixOf_cons_false (fun he => hc.1 he.symm)
    show reStarLit (' ' :: lt) (c :: (N ++ ' ' :: mt)) = none
    simp [reStarLit, hc.2, hrec, h1]

theorem dropWhile_head_false {p : Char → Bool} :
    ∀ {l : List Char} {hd : Char} {tl : List Char}, l.dropWhile p = hd :: tl → p hd = false := by
  intro l
  induction l with
  | nil => intro hd tl h; exact absurd h (by simp)
  | cons c cs ih =>
    intro hd tl h
    rw [List.dropWhile_cons] at h
    by_cases hc : p c = true
    · rw [if_pos hc] at h
      exact ih h
    · rw [if_neg hc] at h
      cases h
      exact Bool.not_eq_true _ ▸ (by simpa using hc)

theorem toList_append (a b : String) : (a ++ b).toList = a.toList ++ b.toList :=
  String.data_append a b

theorem asString_toList (s : String) : s.toList.asString = s := rfl

theorem floatOfChars_chars {cs : List Char} {q : Rat} (h : floatOfChars cs = some q) :
    ∀ c ∈ cs, isDig c = true ∨ c = '.' := by
  intro c hc
  rw [← List.takeWhile_append_dropWhile notDot cs] at hc
  unfold floatOfChars at h
  split at h
  case h_1 hdw =>
    split at h
    case isTrue hcond =>
      rw [Bool.and_eq_true] at hcond
      rw [hdw] at hc
      rcases List.mem_append.mp hc with hmA | hmD
      · exact Or.inl (List.all_eq_true.mp hcond.2 c hmA)
      · exact absurd hmD (by simp)
    case isFalse => exact absurd h (by simp)
  case h_2 hd b hdw =>
    split at h
    case isTrue hcond =>
      simp only [Bool.and_eq_true] at hcond
      rw [hdw] at hc
      rcases List.mem_append.mp hc with hmA | hmD
      · exact Or.inl (List.all_eq_true.mp hcond.2.1 c hmA)
      · rcases List.mem_cons.mp hmD with hhd | hb
        · subst hhd
          have hfd := dropWhile_head_false hdw
          right
          simpa [notDot] using hfd
        · exact Or.inl (List.all_eq_true.mp hcond.2.2.1 c hb)
    case isFalse => exact absurd h (by simp)

theorem get_float_chars {s : String} {q : Rat} (h : get_float s = some q) :
    ∀ c ∈ s.toList, c = ',' ∨ c = '$' ∨ isDig c = true ∨ c = '.' := by
  intro c hc
  by_cases h1 : c = ','
  · exact Or.inl h1
  by_cases h2 : c = '$'
  · exact Or.inr (Or.inl h2)
  have hmem : c ∈ s.toList.filter keepCh := List.mem_filter.mpr ⟨hc, by simp [keepCh, h1, h2]⟩
  rcases floatOfChars_chars h c hmem with hd | hd
  · exact Or.inr (Or.inr (Or.inl hd))
  · exact Or.inr (Or.inr (Or.inr hd))

theorem get_float_clean {s : String} {q : Rat} (h : get_float s = some q) :
    ∀ c ∈ s.toList, c ≠ ' ' ∧ c ≠ '\n' := by
  intro c hc
  rcases get_float_chars h c hc with h1 | h1 | h1 | h1
  · subst h1; exact ⟨by decide, by decide⟩
  · subst h1; exact ⟨by decide, by decide⟩
  · constructor
    · intro he; subst he; revert h1; decide
    · intro he; subst he; revert h1; decide
  · subst h1; exact ⟨by decide, by decide⟩

/-- C5: land-size parsing.  A text `"<N> Square Feet"` with `N` numeric
sets the field to `N` unchanged; `"<N> Acres"` sets it to `N * 43560`; a
text matching neither pattern leaves the field untouched (so unset on a
fresh record); and in the Acres branch a matched group that is not numeric
raises the fatal `TypeError` of `None * 43560`. -/
theorem spec2_c5 :
    (∀ (N : String) (q : Rat) (prev : Option Rat), get_float N = some q →
      landSizeFrom (N ++ " Square Feet") prev = .ok (some q)) ∧
    (∀ (N : String) (q : Rat) (prev : Option Rat), get_float N = some q →
      landSizeFrom (N ++ " Acres") prev = .ok (some (q * 43560))) ∧
    (∀ (s : String) (prev : Option Rat), ¬ (" Square Feet".toList <:+: s.toList) →
      ¬ (" Acres".toList <:+: s.toList) → landSizeFrom s prev = .ok prev) ∧
    (∀ (s : String), ¬ (" Square Feet".toList <:+: s.toList) →
      ¬ (" Acres".toList <:+: s.toList) → landSizeFrom s none = .ok none) ∧
    (∀ (s : String) (g : List Char) (prev : Option Rat),
      reStarLit (" Square Feet".toList) s.toList = none →
      reStarLit (" Acres".toList) s.toList = some g →
      get_float (List.asString g) = none → landSizeFrom s prev = .error .typeError) := by
  have hsf : " Square Feet".toList = ' ' :: "Square Feet".toList := rfl
  have hac : " Acres".toList = ' ' :: "Acres".toList := rfl
  refine ⟨?_, ?_, ?_, ?_, ?_⟩
  · intro N q prev h
    simp only [landSizeFrom, toList_append, hsf,
      reStarLit_append (fun c hcm => get_float_clean h c hcm)]
    rw [asString_toList, h]
  · intro N q prev h
    have hclean := fun c hcm => get_float_clean h c hcm
    have hnomatch : reStarLit (' ' :: "Square Feet".toList)
        (N.toList ++ ' ' :: "Acres".toList) = none :=
      reStarLit_append_other (by decide) (by decide) hclean
    simp only [landSizeFrom, toList_append, hsf, hac, hnomatch, reStarLit_append hclean]
    rw [asString_toList, h]
  · intro s prev hn1 hn2
    simp only [landSizeFrom, reStarLit_none_of_not_infix (by decide) hn1,
      reStarLit_none_of_not_infix (by decide) hn2]
  · intro s hn1 hn2
    simp only [landSizeFrom, reStarLit_none_of_not_infix (by decide) hn1,
      reStarLit_none_of_not_infix (by decide) hn2]
  · intro s g prev h1 h2 h3
    simp only [landSizeFrom, h1, h2, h3]

/-- Witness for C5 at concrete inputs, the fatal Acres branch included. -/
theorem spec2_c5_witness :
    get_float "5" = some ((5 : Nat) : Rat) ∧
    landSizeFrom ("5" ++ " Square Feet") none = .ok (some ((5 : Nat) : Rat)) ∧
    landSizeFrom ("5" ++ " Acres") none = .ok (some (((5 : Nat) : Rat) * 43560)) ∧
    ¬ (" Square Feet".toList <:+: "Unplatted".toList) ∧
    landSizeFrom "Unplatted" none = .ok none ∧
    landSizeFrom "about two Acres" none = .error .typeError := by
  refine ⟨rfl, spec2_c5.1 "5" _ none rfl, spec2_c5.2.1 "5" _ none rfl, by decide,
    spec2_c5.2.2.2.1 "Unplatted" (by decide) (by decide),
    spec2_c5.2.2.2.2 "about two Acres" "about two".toList none rfl rfl rfl⟩

theorem toList_asString (l : List Char) : l.asString.toList = l := rfl

theorem mem_takeWhile_p {p : Char → Bool} :
    ∀ {l : List Char} {c : Char}, c ∈ l.takeWhile p → p c = true := by
  intro l
  induction l with
  | nil => intro c h; exact absurd h (by simp)
  | cons hd tl ih =>
    intro c h
    rw [List.takeWhile_cons] at h
    by_cases hhd : p hd = true
    · rw [if_pos hhd] at h
      rcases List.mem_cons.mp h with he | he
      · rw [he]; exact hhd
      · exact ih he
    · rw [if_neg hhd] at h
      exact absurd h (by simp)

theorem takeWhile_append_all {p : Char → Bool} {t : List Char} {hd : Char} (hhd : p hd = false) :
    ∀ {b : List Char}, b.all p = true →
    (b ++ hd :: t).takeWhile p = b ∧ (b ++ hd :: t).dropWhile p = hd :: t := by
  intro b
  induction b with
  | nil =>
    intro _
    constructor
    · show (hd :: t).takeWhile p = []
      rw [List.takeWhile_cons, if_neg (by simp [hhd])]
    · show (hd :: t).dropWhile p = hd :: t
      rw [List.dropWhile_cons, if_neg (by simp [hhd])]
  | cons c b ih =>
    intro hall
    rw [List.all_cons, Bool.and_eq_true] at hall
    obtain ⟨ht, hd2⟩ := ih hall.2
    constructor
    · show ((c :: b) ++ hd :: t).takeWhile p = c :: b
      rw [List.cons_append, List.takeWhile_cons, if_pos (by simp [hall.1]), ht]
    · show ((c :: b) ++ hd :: t).dropWhile p = hd :: t
      rw [List.cons_append, List.dropWhile_cons, if_pos (by simp [hall.1]), hd2]

theorem matchBlockTail_sound {r bq lq : List Char} (h : matchBlockTail r = some (bq, lq)) :
    ∃ rest, r = bq ++ lotLit ++ lq ++ rest ∧ bq ≠ [] ∧ bq.all isAlnum = true ∧
      lq ≠ [] ∧ lq.all isAlnum = true := by
  unfold matchBlockTail at h
  split at h
  case isTrue => exact absurd h (by simp)
  case isFalse hb =>
    split at h
    case isFalse => exact absurd h (by simp)
    case isTrue hpfx =>
      split at h
      case isTrue => exact absurd h (by simp)
      case isFalse hl =>
        injection h with h
        injection h with hb2 hl2
        obtain ⟨t, ht⟩ := List.isPrefixOf_iff_prefix.mp hpfx
        have hdrop : (r.dropWhile isAlnum).drop 5 = t := by
          rw [← ht, show (5 : Nat) = lotLit.length from rfl, List.drop_left]
        rw [hdrop] at hl2 hl
        refine ⟨t.dropWhile isAlnum, ?_, ?_, ?_, ?_, ?_⟩
        · conv_lhs => rw [← List.takeWhile_append_dropWhile isAlnum r]
          rw [hb2, ← ht]
          conv_lhs => rw [← List.takeWhile_append_dropWhile isAlnum t]
          rw [hl2]
          simp [List.append_assoc]
        · rw [← hb2]; exact hb
        · rw [← hb2]; exact List.all_eq_true.mpr (fun c hc => mem_takeWhile_p hc)
        · rw [← hl2]; exact hl
        · rw [← hl2]; exact List.all_eq_true.mpr (fun c hc => mem_takeWhile_p hc)

theorem matchBlockTail_complete {bq lq rest : List Char} (hb : bq ≠ [])
    (hball : bq.all isAlnum = true) (hl : lq ≠ []) (hlall : lq.all isAlnum = true) :
    (matchBlockTail (bq ++ lotLit ++ lq ++ rest)).isSome = true := by
  obtain ⟨htw, hdw⟩ :=
    @takeWhile_append_all isAlnum (['L', 'o', 't', ' '] ++ (lq ++ rest)) ' ' (by decide) bq hball
  have hform : bq ++ lotLit ++ lq ++ rest = bq ++ ' ' :: (['L', 'o', 't', ' '] ++ (lq ++ rest)) := by
    simp [lotLit]
  unfold matchBlockTail
  rw [hform, htw, hdw, if_neg hb]
  have hpfx : lotLit.isPrefixOf (' ' :: (['L', 'o', 't', ' '] ++ (lq ++ rest))) = true := by
    show lotLit.isPrefixOf (lotLit ++ (lq ++ rest)) = true
    exact List.isPrefixOf_iff_prefix.mpr (List.prefix_append _ _)
  rw [if_pos hpfx]
  have hdrop : (' ' :: (['L', 'o', 't', ' '] ++ (lq ++ rest))).drop 5 = lq ++ rest := by
    show (lotLit ++ (lq ++ rest)).drop 5 = lq ++ rest
    rw [show (5 : Nat) = lotLit.length from rfl, List.drop_left]
  rw [hdrop]
  cases lq with
  | nil => exact absurd rfl hl
  | cons x lq2 =>
    have hx : isAlnum x = true := by
      rw [List.all_cons, Bool.and_eq_true] at hlall
      exact hlall.1
    rw [show (x :: lq2) ++ rest = x :: (lq2 ++ rest) from List.cons_append x lq2 rest,
      List.takeWhile_cons]
    simp [hx]

theorem subCont_sound {r bq lq : List Char} (h : subCont r = some (bq, lq)) :
    ∃ rest, r = blockLit ++ bq ++ lotLit ++ lq ++ rest ∧ bq ≠ [] ∧ bq.all isAlnum = true ∧
      lq ≠ [] ∧ lq.all isAlnum = true := by
  unfold subCont at h
  split at h
  case isFalse => exact absurd h (by simp)
  case isTrue hpfx =>
    obtain ⟨t, ht⟩ := List.isPrefixOf_iff_prefix.mp hpfx
    have hdrop : r.drop 7 = t := by
      rw [← ht, show (7 : Nat) = blockLit.length from rfl, List.drop_left]
    rw [hdrop] at h
    obtain ⟨rest, hteq, h1, h2, h3, h4⟩ := matchBlockTail_sound h
    refine ⟨rest, ?_, h1, h2, h3, h4⟩
    rw [← ht, hteq]
    simp [List.append_assoc]

theorem subCont_complete {bq lq rest : List Char} (hb : bq ≠ []) (hball : bq.all isAlnum = true)
    (hl : lq ≠ []) (hlall : lq.all isAlnum = true) :
    (subCont (blockLit ++ bq ++ lotLit ++ lq ++ rest)).isSome = true := by
  have hassoc : blockLit ++ bq ++ lotLit ++ lq ++ rest =
      blockLit ++ (bq ++ lotLit ++ lq ++ rest) := by
    simp [List.append_assoc]
  rw [hassoc]
  unfold subCont
  have hpfx : blockLit.isPrefixOf (blockLit ++ (bq ++ lotLit ++ lq ++ rest)) = true :=
    List.isPrefixOf_iff_prefix.mpr (List.prefix_append _ _)
  rw [if_pos hpfx]
  have hdrop : (blockLit ++ (bq ++ lotLit ++ lq ++ rest)).drop 7 = bq ++ lotLit ++ lq ++ rest := by
    rw [show (7 : Nat) = blockLit.length from rfl, List.drop_left]
  rw [hdrop]
  exact matchBlockTail_complete hb hball hl hlall

theorem greedyDot_sound {β : Type} {k : List Char → Option β} :
    ∀ {s g : List Char} {b : β}, greedyDot k s = some (g, b) →
    ∃ r, s = g ++ r ∧ k r = some b ∧ ∀ c ∈ g, c ≠ '\n' := by
  intro s
  induction s with
  | nil =>
    intro g b h
    unfold greedyDot at h
    split at h
    case h_1 b2 hk =>
      injection h with h
      injection h with hg hb
      exact ⟨[], by rw [← hg]; rfl, by rw [← hb]; exact hk, by rw [← hg]; simp⟩
    case h_2 => exact absurd h (by simp)
  | cons c cs ih =>
    intro g b h
    unfold greedyDot at h
    split at h
    case isTrue hc =>
      split at h
      case h_1 b2 hk =>
        injection h with h
        injection h with hg hb
        exact ⟨c :: cs, by rw [← hg]; rfl, by rw [← hb]; exact hk, by rw [← hg]; simp⟩
      case h_2 => exact absurd h (by simp)
    case isFalse hc =>
      split at h
      case h_1 p hrec =>
        obtain ⟨r, hr, hk, hnl⟩ := ih hrec
        injection h with h
        injection h with hg hb
        refine ⟨r, ?_, by rw [← hb]; exact hk, ?_⟩
        · rw [← hg, List.cons_append, ← hr]
        · rw [← hg]
          intro x hx
          rcases List.mem_cons.mp hx with he | he
          · rw [he]; exact hc
          · exact hnl x he
      case h_2 hrec =>
        split at h
        case h_1 b2 hk =>
          injection h with h
          injection h with hg hb
          exact ⟨c :: cs, by rw [← hg]; rfl, by rw [← hb]; exact hk, by rw [← hg]; simp⟩
        case h_2 => exact absurd h (by simp)

theorem greedyDot_complete {β : Type} {k : List Char → Option β} :
    ∀ {g r : List Char} {b : β}, (∀ c ∈ g, c ≠ '\n') → k r = some b →
    (greedyDot k (g ++ r)).isSome = true := by
  intro g
  induction g with
  | nil =>
    intro r b _ hk
    show (greedyDot k r).isSome = true
    cases r with
    | nil =>
      unfold greedyDot
      rw [hk]
      rfl
    | cons c cs =>
      unfold greedyDot
      by_cases hc : c = '\n'
      · rw [if_pos hc, hk]
        rfl
      · rw [if_neg hc]
        cases hrec : greedyDot k cs with
        | some p => rfl
        | none => rw [hk]; rfl
  | cons c g2 ih =>
    intro r b hnl hk
    have hc : c ≠ '\n' := hnl c (by simp)
    show (greedyDot k (c :: (g2 ++ r))).isSome = true
    unfold greedyDot
    rw [if_neg hc]
    have hok := ih (fun x hx => hnl x (by simp [hx])) hk
    cases hrec : greedyDot k (g2 ++ r) with
    | some p => rfl
    | none =>
      rw [hrec] at hok
      exact absurd hok (by simp)

theorem matchSubAt_sound {s a bq lq : List Char} (h : matchSubAt s = some (a, bq, lq)) :
    ∃ rest, s = a ++ blockLit ++ bq ++ lotLit ++ lq ++ rest ∧ a ≠ [] ∧
      (∀ c ∈ a, c ≠ '\n') ∧ bq ≠ [] ∧ bq.all isAlnum = true ∧ lq ≠ [] ∧
      lq.all isAlnum = true := by
  cases s with
  | nil => exact absurd h (by simp [matchSubAt])
  | cons c cs =>
    simp only [matchSubAt] at h
    by_cases hc : c = '\n'
    · rw [if_pos hc] at h
      exact absurd h (by simp)
    · rw [if_neg hc] at h
      rw [Option.map_eq_some'] at h
      obtain ⟨p, hgd, hp⟩ := h
      obtain ⟨r, hr, hk, hnl⟩ := greedyDot_sound hgd
      injection hp with ha htl
      have hsub : subCont r = some (bq, lq) := by rw [hk, htl]
      obtain ⟨rest, hrr, h3, h4, h5, h6⟩ := subCont_sound hsub
      refine ⟨rest, ?_, ?_, ?_, h3, h4, h5, h6⟩
      · rw [← ha]
        simp [hr, hrr, List.append_assoc]
      · rw [← ha]; simp
      · rw [← ha]
        intro x hx
        rcases List.mem_cons.mp hx with he | he
        · rw [he]; exact hc
        · exact hnl x he

theorem matchSubAt_complete {a bq lq rest : List Char} (ha : a ≠ [])
    (hnl : ∀ c ∈ a, c ≠ '\n') (hb : bq ≠ []) (hball : bq.all isAlnum = true)
    (hl : lq ≠ []) (hlall : lq.all isAlnum = true) :
    (matchSubAt (a ++ blockLit ++ bq ++ lotLit ++ lq ++ rest)).isSome = true := by
  cases a with
  | nil => exact absurd rfl ha
  | cons c a2 =>
    have hc : c ≠ '\n' := hnl c (by simp)
    have hassoc : (c :: a2) ++ blockLit ++ bq ++ lotLit ++ lq ++ rest =
        c :: (a2 ++ (blockLit ++ bq ++ lotLit ++ lq ++ rest)) := by
      simp [List.append_assoc]
    rw [hassoc]
    simp only [matchSubAt]
    rw [if_neg hc]
    have hsub : (subCont (blockLit ++ bq ++ lotLit ++ lq ++ rest)).isSome = true :=
      subCont_complete hb hball hl hlall
    rw [Option.isSome_iff_exists] at hsub
    obtain ⟨p, hp⟩ := hsub
    have hgd := greedyDot_complete (g := a2) (fun x hx => hnl x (by simp [hx])) hp
    rw [Option.isSome_iff_exists] at hgd
    obtain ⟨p2, hp2⟩ := hgd
    rw [hp2]
    rfl

theorem reFindSub_sound : ∀ {s a bq lq : List Char}, reFindSub s = some (a, bq, lq) →
    ∃ pre rest, s = pre ++ a ++ blockLit ++ bq ++ lotLit ++ lq ++ rest ∧ a ≠ [] ∧
      (∀ c ∈ a, c ≠ '\n') ∧ bq ≠ [] ∧ bq.all isAlnum = true ∧ lq ≠ [] ∧
      lq.all isAlnum = true := by
  intro s
  induction s with
  | nil => intro a bq lq h; exact absurd h (by simp [reFindSub])
  | cons c cs ih =>
    intro a bq lq h
    unfold reFindSub at h
    split at h
    case h_1 res hm =>
      injection h with h
      subst h
      obtain ⟨rest, hs, h1, h2, h3, h4, h5, h6⟩ := matchSubAt_sound hm
      exact ⟨[], rest, by simpa using hs, h1, h2, h3, h4, h5, h6⟩
    case h_2 hm =>
      obtain ⟨pre, rest, hs, h1, h2, h3, h4, h5, h6⟩ := ih h
      refine ⟨c :: pre, rest, ?_, h1, h2, h3, h4, h5, h6⟩
      simp [hs, List.append_assoc]

theorem reFindSub_complete : ∀ (pre : List Char) {a bq lq rest : List Char}, a ≠ [] →
    (∀ c ∈ a, c ≠ '\n') → bq ≠ [] → bq.all isAlnum = true → lq ≠ [] →
    lq.all isAlnum = true →
    (reFindSub (pre ++ a ++ blockLit ++ bq ++ lotLit ++ lq ++ rest)).isSome = true := by
  intro pre
  induction pre with
  | nil =>
    intro a bq lq rest ha hnl hb hball hl hlall
    have h : (matchSubAt (a ++ blockLit ++ bq ++ lotLit ++ lq ++ rest)).isSome = true :=
      matchSubAt_complete ha hnl hb hball hl hlall
    rw [Option.isSome_iff_exists] at h
    obtain ⟨res, hres⟩ := h
    rw [show ([] : List Char) ++ a ++ blockLit ++ bq ++ lotLit ++ lq ++ rest =
      a ++ blockLit ++ bq ++ lotLit ++ lq ++ rest from by simp]
    cases a with
    | nil => exact absurd rfl ha
    | cons c a2 =>
      rw [show ((c :: a2) ++ blockLit ++ bq ++ lotLit ++ lq ++ rest : List Char) =
        c :: (a2 ++ blockLit ++ bq ++ lotLit ++ lq ++ rest) from by
          simp [List.append_assoc]] at hres ⊢
      unfold reFindSub
      rw [hres]
      rfl
  | cons c pre2 ih =>
    intro a bq lq rest ha hnl hb hball hl hlall
    rw [show ((c :: pre2) ++ a ++ blockLit ++ bq ++ lotLit ++ lq ++ rest : List Char) =
      c :: (pre2 ++ a ++ blockLit ++ bq ++ lotLit ++ lq ++ rest) from by
        simp [List.append_assoc]]
    unfold reFindSub
    cases hm : matchSubAt (c :: (pre2 ++ a ++ blockLit ++ bq ++ lotLit ++ lq ++ rest)) with
    | some res => rfl
    | none => exact ih ha hnl hb hball hl hlall

/-- C6: the subdivision/block/lot parse.  On success the three captured
groups decompose the input around the `" Block "` and `" Lot "` literals,
with both block and lot nonempty alphanumeric runs returned as text (the
record keeps them as strings); when no decomposition exists the parse
raises a fatal `IndexError` (the `[0]` on an empty `findall` list), with no
fallback; whenever a decomposition exists the scan finds a match; and the
example from the specification parses to its three groups exactly. -/
theorem spec2_c6 :
    (∀ (s a b l : String), subdivisionBlockLot s = .ok (a, b, l) →
      ∃ pre rest, s.toList = pre ++ a.toList ++ " Block ".toList ++ b.toList ++
        " Lot ".toList ++ l.toList ++ rest ∧ a.toList ≠ [] ∧ b.toList ≠ [] ∧
        b.toList.all isAlnum = true ∧ l.toList ≠ [] ∧ l.toList.all isAlnum = true) ∧
    (∀ s : String, reFindSub s.toList = none → subdivisionBlockLot s = .error .indexError) ∧
    (∀ (pre a bq lq rest : List Char), a ≠ [] → (∀ c ∈ a, c ≠ '\n') → bq ≠ [] →
      bq.all isAlnum = true → lq ≠ [] → lq.all isAlnum = true →
      (reFindSub (pre ++ a ++ blockLit ++ bq ++ lotLit ++ lq ++ rest)).isSome = true) ∧
    subdivisionBlockLot "Elm Heights Block 3A Lot 12" = .ok ("Elm Heights", "3A", "12") := by
  refine ⟨?_, ?_, ?_, rfl⟩
  · intro s a b l h
    unfold subdivisionBlockLot at h
    split at h
    case h_1 a2 b2 l2 hm =>
      injection h with h
      injection h with ha h
      injection h with hb hl
      obtain ⟨pre, rest, hs, h1, h2, h3, h4, h5, h6⟩ := reFindSub_sound hm
      refine ⟨pre, rest, ?_, ?_, ?_, ?_, ?_, ?_⟩
      · rw [← ha, ← hb, ← hl]
        simp only [toList_asString]
        rw [show " Block ".toList = blockLit from rfl, show " Lot ".toList = lotLit from rfl]
        exact hs
      · rw [← ha]; simpa only [toList_asString] using h1
      · rw [← hb]; simpa only [toList_asString] using h3
      · rw [← hb]; simpa only [toList_asString] using h4
      · rw [← hl]; simpa only [toList_asString] using h5
      · rw [← hl]; simpa only [toList_asString] using h6
    case h_2 => exact absurd h (by simp)
  · intro s h
    have h2 : reFindSub s.data = none := h
    simp [subdivisionBlockLot, h2]
  · intro pre a bq lq rest ha hnl hb hball hl hlall
    exact reFindSub_complete pre ha hnl hb hball hl hlall

/-- Witness for C6: a non-matching string fails with `IndexError`, and a
concrete decomposition is found by the scan. -/
theorem spec2_c6_witness :
    reFindSub "Unplatted".toList = none ∧
    subdivisionBlockLot "Unplatted" = .error .indexError ∧
    (reFindSub ([] ++ "Elm Heights".toList ++ blockLit ++ "3A".toList ++ lotLit ++
      "12".toList ++ [])).isSome = true := by
  refine ⟨rfl, spec2_c6.2.1 "Unplatted" rfl, ?_⟩
  exact spec2_c6.2.2.1 [] "Elm Heights".toList "3A".toList "12".toList []
    (by decide) (by decide) (by decide) (by decide) (by decide) (by decide)

theorem isDig_digitChar {n : Nat} (h : n < 10) : isDig (digitChar n) = true := by
  interval_cases n <;> decide

theorem digitVal_digitChar {n : Nat} (h : n < 10) : digitVal (digitChar n) = n := by
  interval_cases n <;> decide

theorem isDig_toNat {c : Char} (h : isDig c = true) : 48 ≤ c.toNat ∧ c.toNat ≤ 57 := by
  unfold isDig at h
  rw [Bool.and_eq_true] at h
  exact ⟨of_decide_eq_true h.1, of_decide_eq_true h.2⟩

theorem char_toNat_inj {a b : Char} (h : a.toNat = b.toNat) : a = b := by
  rw [← Char.ofNat_toNat a, ← Char.ofNat_toNat b, h]

theorem digitChar_digitVal {c : Char} (h : isDig c = true) : digitChar (digitVal c) = c := by
  obtain ⟨h1, _⟩ := isDig_toNat h
  unfold digitChar digitVal
  rw [show 48 + (c.toNat - 48) = c.toNat from by omega]
  exact Char.ofNat_toNat c

theorem digitVal_lt {c : Char} (h : isDig c = true) : digitVal c < 10 := by
  obtain ⟨h1, h2⟩ := isDig_toNat h
  unfold digitVal
  omega

theorem digitVal_pos {c : Char} (hd : isDig c = true) (h0 : c ≠ '0') : 1 ≤ digitVal c := by
  obtain ⟨h1, h2⟩ := isDig_toNat hd
  have : c.toNat ≠ 48 := fun he => h0 (char_toNat_inj (by rw [he]; rfl))
  unfold digitVal
  omega

theorem renderNum_one {m : Nat} (h : m < 10) : renderNum false m = [digitChar m] := by
  unfold renderNum
  simp [h]

theorem renderNum_pad (m : Nat) : renderNum true m = pad2 m := by
  unfold renderNum
  simp

theorem renderNum_ge {m : Nat} (h : 10 ≤ m) (pm : Bool) : renderNum pm m = pad2 m := by
  unfold renderNum
  simp [show ¬ m < 10 from by omega]

theorem pad2_of {m a b : Nat} (ha : a < 10) (hb : b < 10) (hm : m = 10 * a + b) :
    pad2 m = [digitChar a, digitChar b] := by
  unfold pad2
  rw [show m / 10 % 10 = a from by omega, show m % 10 = b from by omega]

theorem firstSome_eq_some {α β : Type} {f : α → Option β} :
    ∀ {xs : List α} {b : β}, firstSome xs f = some b → ∃ x ∈ xs, f x = some b := by
  intro xs
  induction xs with
  | nil => intro b h; exact absurd h (by simp [firstSome])
  | cons x xs ih =>
    intro b h
    unfold firstSome at h
    split at h
    case h_1 b2 hfx =>
      injection h with h
      subst h
      exact ⟨x, by simp, hfx⟩
    case h_2 hfx =>
      obtain ⟨x2, hm, hx2⟩ := ih h
      exact ⟨x2, by simp [hm], hx2⟩

theorem yearCand_render {y : Nat} (h : y ≤ 9999) (rest : List Char) :
    yearCand (pad4 y ++ rest) = some (y, rest) := by
  have h1 : y / 1000 % 10 < 10 := Nat.mod_lt _ (by norm_num)
  have h2 : y / 100 % 10 < 10 := Nat.mod_lt _ (by norm_num)
  have h3 : y / 10 % 10 < 10 := Nat.mod_lt _ (by norm_num)
  have h4 : y % 10 < 10 := Nat.mod_lt _ (by norm_num)
  have hval : y / 1000 % 10 * 1000 + y / 100 % 10 * 100 + y / 10 % 10 * 10 + y % 10 = y := by
    omega
  show yearCand (digitChar (y / 1000 % 10) :: digitChar (y / 100 % 10) ::
    digitChar (y / 10 % 10) :: digitChar (y % 10) :: rest) = some (y, rest)
  simp only [yearCand]
  rw [isDig_digitChar h1, isDig_digitChar h2, isDig_digitChar h3, isDig_digitChar h4,
    digitVal_digitChar h1, digitVal_digitChar h2, digitVal_digitChar h3, digitVal_digitChar h4]
  simp [hval]

theorem yearCand_sound {r : List Char} {y : Nat} {rest : List Char}
    (h : yearCand r = some (y, rest)) : y ≤ 9999 ∧ r = pad4 y ++ rest := by
  cases r with
  | nil => exact absurd h (by simp [yearCand])
  | cons c1 r1 =>
  cases r1 with
  | nil => exact absurd h (by simp [yearCand])
  | cons c2 r2 =>
  cases r2 with
  | nil => exact absurd h (by simp [yearCand])
  | cons c3 r3 =>
  cases r3 with
  | nil => exact absurd h (by simp [yearCand])
  | cons c4 rest2 =>
  simp only [yearCand] at h
  by_cases hdig : (isDig c1 && isDig c2 && isDig c3 && isDig c4) = true
  · rw [if_pos hdig] at h
    simp only [Bool.and_eq_true] at hdig
    obtain ⟨⟨⟨hd1, hd2⟩, hd3⟩, hd4⟩ := hdig
    injection h with h
    injection h with hy hrest
    have b1 := digitVal_lt hd1
    have b2 := digitVal_lt hd2
    have b3 := digitVal_lt hd3
    have b4 := digitVal_lt hd4
    constructor
    · omega
    · have e1 : y / 1000 % 10 = digitVal c1 := by omega
      have e2 : y / 100 % 10 = digitVal c2 := by omega
      have e3 : y / 10 % 10 = digitVal c3 := by omega
      have e4 : y % 10 = digitVal c4 := by omega
      rw [← hrest]
      show c1 :: c2 :: c3 :: c4 :: rest2 = pad4 y ++ rest2
      unfold pad4
      rw [e1, e2, e3, e4, digitChar_digitVal hd1, digitChar_digitVal hd2,
        digitChar_digitVal hd3, digitChar_digitVal hd4]
      rfl
  · rw [if_neg hdig] at h
    exact absurd h (by simp)

theorem monthCands_mem {cs : List Char} {m : Nat} {r1 : List Char}
    (h : (m, r1) ∈ monthCands cs) :
    1 ≤ m ∧ m ≤ 12 ∧ ∃ pm, cs = renderNum pm m ++ r1 := by
  cases cs with
  | nil => exact absurd h (by simp [monthCands])
  | cons c1 t =>
    cases t with
    | nil =>
      simp only [monthCands] at h
      split at h
      case isTrue hcond =>
        rw [Bool.and_eq_true] at hcond
        have h0 : c1 ≠ '0' := of_decide_eq_true hcond.2
        rw [List.mem_singleton] at h
        injection h with hm hr
        have hge := digitVal_pos hcond.1 h0
        have hlt := digitVal_lt hcond.1
        refine ⟨by omega, by omega, false, ?_⟩
        rw [hr, hm, renderNum_one hlt, digitChar_digitVal hcond.1]
        rfl
      case isFalse => exact absurd h (by simp)
    | cons c2 rest =>
      simp only [monthCands] at h
      rcases List.mem_append.mp h with h12 | h3
      · rcases List.mem_append.mp h12 with h1 | h2
        · split at h1
          case isTrue hcond =>
            rw [Bool.and_eq_true] at hcond
            have hc1 : c1 = '1' := of_decide_eq_true hcond.1
            have hc2 : 48 ≤ c2.toNat ∧ c2.toNat ≤ 50 := by
              have hir := hcond.2
              unfold inRange at hir
              rw [Bool.and_eq_true] at hir
              exact ⟨of_decide_eq_true hir.1, of_decide_eq_true hir.2⟩
            have hd2 : isDig c2 = true := by
              unfold isDig
              rw [Bool.and_eq_true]
              exact ⟨decide_eq_true (by omega), decide_eq_true (by omega)⟩
            have hle2 : digitVal c2 ≤ 2 := by
              unfold digitVal
              omega
            rw [List.mem_singleton] at h1
            injection h1 with hm hr
            refine ⟨by omega, by omega, true, ?_⟩
            rw [hr, hm, renderNum_ge (by omega) true,
              pad2_of (a := 1) (b := digitVal c2) (by omega) (digitVal_lt hd2) (by omega),
              digitChar_digitVal hd2, hc1, show digitChar 1 = '1' from by decide]
            rfl
          case isFalse => exact absurd h1 (by simp)
        · split at h2
          case isTrue hcond =>
            rw [Bool.and_eq_true, Bool.and_eq_true] at hcond
            have hc1 : c1 = '0' := of_decide_eq_true hcond.1
            have h0 : c2 ≠ '0' := of_decide_eq_true hcond.2.2
            have hge := digitVal_pos hcond.2.1 h0
            have hlt := digitVal_lt hcond.2.1
            rw [List.mem_singleton] at h2
            injection h2 with hm hr
            refine ⟨by omega, by omega, true, ?_⟩
            rw [hr, hm, renderNum_pad,
              pad2_of (a := 0) (b := digitVal c2) (by omega) hlt (by omega),
              digitChar_digitVal hcond.2.1, hc1, show digitChar 0 = '0' from by decide]
            rfl
          case isFalse => exact absurd h2 (by simp)
      · split at h3
        case isTrue hcond =>
          rw [Bool.and_eq_true] at hcond
          have h0 : c1 ≠ '0' := of_decide_eq_true hcond.2
          have hge := digitVal_pos hcond.1 h0
          have hlt := digitVal_lt hcond.1
          rw [List.mem_singleton] at h3
          injection h3 with hm hr
          refine ⟨by omega, by omega, false, ?_⟩
          rw [hr, hm, renderNum_one hlt, digitChar_digitVal hcond.1]
          rfl
        case isFalse => exact absurd h3 (by simp)

theorem dayCands_mem {cs : List Char} {d : Nat} {r1 : List Char}
    (h : (d, r1) ∈ dayCands cs) :
    1 ≤ d ∧ d ≤ 31 ∧ ∃ pd, cs = renderNum pd d ++ r1 := by
  cases cs with
  | nil => exact absurd h (by simp [dayCands])
  | cons c1 t =>
    cases t with
    | nil =>
      simp only [dayCands] at h
      split at h
      case isTrue hcond =>
        rw [Bool.and_eq_true] at hcond
        have h0 : c1 ≠ '0' := of_decide_eq_true hcond.2
        rw [List.mem_singleton] at h
        injection h with hm hr
        have hge := digitVal_pos hcond.1 h0
        have hlt := digitVal_lt hcond.1
        refine ⟨by omega, by omega, false, ?_⟩
        rw [hr, hm, renderNum_one hlt, digitChar_digitVal hcond.1]
        rfl
      case isFalse => exact absurd h (by simp)
    | cons c2 rest =>
      simp only [dayCands] at h
      rcases List.mem_append.mp h with h123 | h4
      · rcases List.mem_append.mp h123 with h12 | h3
        · rcases List.mem_append.mp h12 with h1 | h2
          · split at h1
            case isTrue hcond =>
              rw [Bool.and_eq_true, Bool.or_eq_true] at hcond
              have hc1 : c1 = '3' := of_decide_eq_true hcond.1
              have hc2 : c2 = '0' ∨ c2 = '1' := by
                rcases hcond.2 with hx | hx
                · exact Or.inl (of_decide_eq_true hx)
                · exact Or.inr (of_decide_eq_true hx)
              have hd2 : isDig c2 = true := by
                rcases hc2 with hx | hx <;> rw [hx] <;> decide
              have hle1 : digitVal c2 ≤ 1 := by
                rcases hc2 with hx | hx <;> rw [hx] <;> decide
              rw [List.mem_singleton] at h1
              injection h1 with hm hr
              refine ⟨by omega, by omega, true, ?_⟩
              rw [hr, hm, renderNum_ge (by omega) true,
                pad2_of (a := 3) (b := digitVal c2) (by omega) (digitVal_lt hd2) (by omega),
                digitChar_digitVal hd2, hc1, show digitChar 3 = '3' from by decide]
              rfl
            case isFalse => exact absurd h1 (by simp)
          · split at h2
            case isTrue hcond =>
              rw [Bool.and_eq_true, Bool.or_eq_true] at hcond
              have hc1 : c1 = '1' ∨ c1 = '2' := by
                rcases hcond.1 with hx | hx
                · exact Or.inl (of_decide_eq_true hx)
                · exact Or.inr (of_decide_eq_true hx)
              have hd1 : isDig c1 = true := by
                rcases hc1 with hx | hx <;> rw [hx] <;> decide
              have hv1 : 1 ≤ digitVal c1 ∧ digitVal c1 ≤ 2 := by
                rcases hc1 with hx | hx <;> rw [hx] <;> exact ⟨by decide, by decide⟩
              have hlt2 := digitVal_lt hcond.2
              rw [List.mem_singleton] at h2
              injection h2 with hm hr
              refine ⟨by omega, by omega, true, ?_⟩
              rw [hr, hm, renderNum_ge (by omega) true,
                pad2_of (a := digitVal c1) (b := digitVal c2) (by omega) hlt2 (by omega),
                digitChar_digitVal hd1, digitChar_digitVal hcond.2]
              rfl
            case isFalse => exact absurd h2 (by simp)
        · split at h3
          case isTrue hcond =>
            rw [Bool.and_eq_true, Bool.and_eq_true] at hcond
            have hc1 : c1 = '0' := of_decide_eq_true hcond.1
            have h0 : c2 ≠ '0' := of_decide_eq_true hcond.2.2
            have hge := digitVal_pos hcond.2.1 h0
            have hlt := digitVal_lt hcond.2.1
            rw [List.mem_singleton] at h3
            injection h3 with hm hr
            refine ⟨by omega, by omega, true, ?_⟩
            rw [hr, hm, renderNum_pad,
              pad2_of (a := 0) (b := digitVal c2) (by omega) hlt (by omega),
              digitChar_digitVal hcond.2.1, hc1, show digitChar 0 = '0' from by decide]
            rfl
          case isFalse => exact absurd h3 (by simp)
      · split at h4
        case isTrue hcond =>
          rw [Bool.and_eq_true] at hcond
          have h0 : c1 ≠ '0' := of_decide_eq_true hcond.2
          have hge := digitVal_pos hcond.1 h0
          have hlt := digitVal_lt hcond.1
          rw [List.mem_singleton] at h4
          injection h4 with hm hr
          refine ⟨by omega, by omega, false, ?_⟩
          rw [hr, hm, renderNum_one hlt, digitChar_digitVal hcond.1]
          rfl
        case isFalse => exact absurd h4 (by simp)

theorem daysInMonth_le (y m : Nat) : daysInMonth y m ≤ 31 := by
  unfold daysInMonth
  split_ifs <;> omega

theorem mdyScan_step {cs : List Char} {m : Nat} {r2 : List Char} {tl : List (Nat × List Char)}
    {dy : Nat × Nat} (hm : monthCands cs = (m, '/' :: r2) :: tl)
    (hdy : dayYearPart r2 = some dy) : mdyScan cs = some (m, dy.1, dy.2) := by
  unfold mdyScan
  rw [hm]
  unfold firstSome
  simp [hdy]

theorem dayYearPart_step {r2 : List Char} {d : Nat} {r4 : List Char}
    {tl : List (Nat × List Char)} {y : Nat}
    (hd : dayCands r2 = (d, '/' :: r4) :: tl) (hy : yearCand r4 = some (y, [])) :
    dayYearPart r2 = some (d, y) := by
  unfold dayYearPart
  rw [hd]
  unfold firstSome
  simp [hy]

theorem day_render_scan {d y : Nat} (pd : Bool) (h1 : 1 ≤ d) (h2 : d ≤ 31) (hyv : y ≤ 9999) :
    dayYearPart (renderNum pd d ++ '/' :: pad4 y) = some (d, y) := by
  have hy : yearCand (pad4 y) = some (y, []) := by
    have hr := yearCand_render hyv []
    rwa [List.append_nil] at hr
  interval_cases d <;> cases pd <;> exact dayYearPart_step rfl hy

theorem month_render_scan {m : Nat} (pm : Bool) {r2 : List Char} {dy : Nat × Nat}
    (h1 : 1 ≤ m) (h2 : m ≤ 12) (hdy : dayYearPart r2 = some dy) :
    mdyScan (renderNum pm m ++ '/' :: r2) = some (m, dy.1, dy.2) := by
  interval_cases m <;> cases pm <;> exact mdyScan_step rfl hdy

theorem strptimeMDY_render {m d y : Nat} (pm pd : Bool) (hv : datetimeValid y m d = true) :
    strptimeMDY (renderMDY pm pd m d y) = .ok (y, m, d) := by
  have hb : 1 ≤ y ∧ y ≤ 9999 ∧ 1 ≤ m ∧ m ≤ 12 ∧ 1 ≤ d ∧ d ≤ daysInMonth y m := by
    unfold datetimeValid at hv
    simp only [Bool.and_eq_true, decide_eq_true_eq] at hv
    tauto
  have hd31 : d ≤ 31 := le_trans hb.2.2.2.2.2 (daysInMonth_le y m)
  have hdy : dayYearPart (renderNum pd d ++ '/' :: pad4 y) = some (d, y) :=
    day_render_scan pd hb.2.2.2.2.1 hd31 hb.2.1
  have hm := month_render_scan pm hb.2.2.1 hb.2.2.2.1 hdy
  have hshape : (renderMDY pm pd m d y).toList =
      renderNum pm m ++ '/' :: (renderNum pd d ++ '/' :: pad4 y) := by
    show (List.asString (renderNum pm m ++ '/' :: renderNum pd d ++ '/' :: pad4 y)).toList = _
    rw [toList_asString]
    simp [List.append_assoc]
  unfold strptimeMDY
  rw [hshape, hm]
  simp [hv]

theorem strptimeMDY_sound {s : String} {y m d : Nat} (h : strptimeMDY s = .ok (y, m, d)) :
    datetimeValid y m d = true ∧
    ∃ pm pd, s.toList = renderNum pm m ++ '/' :: (renderNum pd d ++ '/' :: pad4 y) := by
  unfold strptimeMDY at h
  split at h
  case h_2 => exact absurd h (by simp)
  case h_1 m2 d2 y2 hscan =>
    split at h
    case isFalse => exact absurd h (by simp)
    case isTrue hv =>
      injection h with h
      injection h with h1 h
      injection h with h2 h3
      subst h1
      subst h2
      subst h3
      refine ⟨hv, ?_⟩
      obtain ⟨x, hxmem, hxf⟩ := firstSome_eq_some hscan
      obtain ⟨xm, xr⟩ := x
      split at hxf
      case h_2 => exact absurd hxf (by simp)
      case h_1 r2 heq =>
        rw [Option.map_eq_some'] at hxf
        obtain ⟨q, hq, hqe⟩ := hxf
        obtain ⟨q1, q2⟩ := q
        injection hqe with e1 hqe
        injection hqe with e2 e3
        dsimp only at e1 e2 e3 heq
        subst e1
        subst e2
        subst e3
        obtain ⟨hm1, hm2, pm, hcs⟩ := monthCands_mem hxmem
        unfold dayYearPart at hq
        obtain ⟨x2, hx2mem, hx2f⟩ := firstSome_eq_some hq
        obtain ⟨x2d, x2r⟩ := x2
        split at hx2f
        case h_2 => exact absurd hx2f (by simp)
        case h_1 r4 heq2 =>
          split at hx2f
          case h_2 => exact absurd hx2f (by simp)
          case h_1 y3 hyc =>
            injection hx2f with hx2f
            injection hx2f with f1 f2
            dsimp only at f1 f2 heq2
            subst f1
            subst f2
            obtain ⟨hd1, hd2, pd, hr2⟩ := dayCands_mem hx2mem
            obtain ⟨hy9, hr4⟩ := yearCand_sound hyc
            rw [List.append_nil] at hr4
            refine ⟨pm, pd, ?_⟩
            rw [hcs, heq, hr2, heq2, hr4]

/-- C7: `strptime` with the single fixed format `%m/%d/%Y`.  Every text of
the format language (optionally zero-padded month and day, four-digit
year) denoting a calendar-valid date parses to exactly that date; every
text the parser accepts is of that shape and calendar-valid (so the call
raises exactly on the texts outside the format language); `"01/15/2021"`
parses to 2021-01-15, and the ISO text `"2021-01-15"` raises a fatal
`ValueError`. -/
theorem spec2_c7 :
    (∀ (m d y : Nat) (pm pd : Bool), datetimeValid y m d = true →
      strptimeMDY (renderMDY pm pd m d y) = .ok (y, m, d)) ∧
    (∀ (s : String) (y m d : Nat), strptimeMDY s = .ok (y, m, d) →
      datetimeValid y m d = true ∧
      ∃ pm pd, s.toList = renderNum pm m ++ '/' :: (renderNum pd d ++ '/' :: pad4 y)) ∧
    strptimeMDY "01/15/2021" = .ok (2021, 1, 15) ∧
    strptimeMDY "2021-01-15" = .error "time data does not match format" := by
  refine ⟨?_, ?_, rfl, rfl⟩
  · intro m d y pm pd hv
    exact strptimeMDY_render pm pd hv
  · intro s y m d h
    exact strptimeMDY_sound h

/-- Witness for C7 at the specification's example date. -/
theorem spec2_c7_witness :
    datetimeValid 2021 1 15 = true ∧
    strptimeMDY (renderMDY true true 1 15 2021) = .ok (2021, 1, 15) ∧
    renderMDY true true 1 15 2021 = "01/15/2021" :=
  ⟨by decide, spec2_c7.1 1 15 2021 true true (by decide), by decide⟩
